import Mathlib

set_option maxHeartbeats 2000000
set_option autoImplicit false

/-! Shallow embedding of ciadmin/generate/worker_pools.py: the worker-pool
generation core (provider generators, variant expander, pool assembler),
together with spec-modelled versions of the small utility collaborators the
module imports (deep merge, keyed-by resolution, image lookup, configuration
file shapes), and theorems about the claims of the specification. -/

/-- Dynamic configuration values: the Python scalars, lists and string-keyed
mappings that worker-pool configurations are made of. -/
inductive Val where
  | vstr : String → Val
  | vint : Int → Val
  | vbool : Bool → Val
  | vnone : Val
  | vlist : List Val → Val
  | vdict : List (String × Val) → Val
deriving Repr

mutual

/-- Structural size of a value, used as recursion fuel below. -/
def valSize : Val → Nat
  | .vstr _ => 1
  | .vint _ => 1
  | .vbool _ => 1
  | .vnone => 1
  | .vlist l => 1 + valSizeL l
  | .vdict d => 1 + valSizeE d

def valSizeL : List Val → Nat
  | [] => 0
  | v :: rest => 1 + valSize v + valSizeL rest

def valSizeE : List (String × Val) → Nat
  | [] => 0
  | (_, v) :: rest => 1 + valSize v + valSizeE rest

end

mutual

/-- Boolean equality on values (Python equality restricted to these shapes). -/
def valEq : Val → Val → Bool
  | .vstr a, .vstr b => a = b
  | .vint a, .vint b => a = b
  | .vbool a, .vbool b => a = b
  | .vnone, .vnone => true
  | .vlist a, .vlist b => valEqL a b
  | .vdict a, .vdict b => valEqE a b
  | _, _ => false

def valEqL : List Val → List Val → Bool
  | [], [] => true
  | a :: ra, b :: rb => valEq a b && valEqL ra rb
  | _, _ => false

def valEqE : List (String × Val) → List (String × Val) → Bool
  | [], [] => true
  | (ka, a) :: ra, (kb, b) :: rb => ka = kb && (valEq a b && valEqE ra rb)
  | _, _ => false

end

mutual

theorem valEq_iff : ∀ a b, valEq a b = true ↔ a = b
  | a, b => by
    cases a <;> cases b <;> simp [valEq]
    case vlist.vlist xs ys => exact valEqL_iff xs ys
    case vdict.vdict xs ys => exact valEqE_iff xs ys

theorem valEqL_iff : ∀ a b, valEqL a b = true ↔ a = b
  | [], [] => by simp [valEqL]
  | [], _ :: _ => by simp [valEqL]
  | _ :: _, [] => by simp [valEqL]
  | x :: ra, y :: rb => by
    simp [valEqL, Bool.and_eq_true, valEq_iff x y, valEqL_iff ra rb]

theorem valEqE_iff : ∀ a b, valEqE a b = true ↔ a = b
  | [], [] => by simp [valEqE]
  | [], _ :: _ => by simp [valEqE]
  | _ :: _, [] => by simp [valEqE]
  | (ka, x) :: ra, (kb, y) :: rb => by
    simp [valEqE, Bool.and_eq_true, valEq_iff x y, valEqE_iff ra rb]
    tauto

end

instance : DecidableEq Val := fun a b => decidable_of_iff _ (valEq_iff a b)

/-- First-match lookup in an ordered string-keyed association list (the model of
a Python dict; insertion order is significant, keys are unique by use). -/
def lookupStr {α : Type} : List (String × α) → String → Option α
  | [], _ => none
  | (k, v) :: rest, key => if k = key then some v else lookupStr rest key

/-- Replace the value at a key in place, or append the binding at the end:
the Python semantics of d[k] = v. -/
def setKey : List (String × Val) → String → Val → List (String × Val)
  | [], k, v => [(k, v)]
  | (k0, v0) :: rest, k, v =>
    if k0 = k then (k, v) :: rest else (k0, v0) :: setKey rest k v

/-- Remove the binding of a key: the Python semantics of del d[k]. -/
def delKey : List (String × Val) → String → List (String × Val)
  | [], _ => []
  | (k0, v0) :: rest, k =>
    if k0 = k then rest else (k0, v0) :: delKey rest k

/-- Shallow dict update: apply every binding of the second dict to the first,
in order; the Python semantics of dst.update(src). -/
def updateDict (dst : List (String × Val)) : List (String × Val) → List (String × Val)
  | [] => dst
  | (k, v) :: rest => updateDict (setKey dst k v) rest

/-- Errors raised by the generation core. The constructors follow the spec
taxonomy: resolution for keyed-by failures, valueError for capacity validation
and string unpacking, keyError for missing keys and failed lookups, typeError
for operations applied to a value of the wrong shape. -/
inductive GenError where
  | resolution : String → GenError
  | valueError : String → GenError
  | keyError : String → GenError
  | typeError : String → GenError
deriving DecidableEq, Repr

def isOkE {α : Type} : Except GenError α → Bool
  | .ok _ => true
  | .error _ => false

def okVal {α : Type} : Except GenError α → Option α
  | .ok a => some a
  | .error _ => none

/-- Python truthiness of a value. -/
def truthy : Val → Bool
  | .vstr s => !(s = "")
  | .vint n => !(n = 0)
  | .vbool b => b
  | .vnone => false
  | .vlist l => match l with | [] => false | _ => true
  | .vdict d => match d with | [] => false | _ => true

/-- Scalar string rendering (Python str applied to a scalar); the rendering of
container values is provider-specific repr output never exercised by the
configurations modelled here and is abstracted to a constant. -/
def pyStr : Val → String
  | .vstr s => s
  | .vint n => toString n
  | .vbool b => cond b "True" "False"
  | .vnone => "None"
  | .vlist _ => "object"
  | .vdict _ => "object"

def asDict : Val → Except GenError (List (String × Val))
  | .vdict d => Except.ok d
  | _ => Except.error (GenError.typeError "expected a mapping")

def asList : Val → Except GenError (List Val)
  | .vlist l => Except.ok l
  | _ => Except.error (GenError.typeError "expected a list")

def asStr : Val → Except GenError String
  | .vstr s => Except.ok s
  | _ => Except.error (GenError.typeError "expected a string")

/-- Mapping item access d[k] on an entry list: KeyError when absent. -/
def indexDict (d : List (String × Val)) (k : String) : Except GenError Val :=
  match lookupStr d k with
  | some v => Except.ok v
  | none => Except.error (GenError.keyError k)

/-- Item access v[k] on a value: TypeError when v is not a mapping. -/
def indexVal (v : Val) (k : String) : Except GenError Val :=
  match v with
  | Val.vdict d => indexDict d k
  | _ => Except.error (GenError.typeError "not a mapping")

/-- Mapping access v.get(k, dflt): TypeError when v is not a mapping. -/
def dictGetD (v : Val) (k : String) (dflt : Val) : Except GenError Val :=
  match v with
  | Val.vdict d => Except.ok ((lookupStr d k).getD dflt)
  | _ => Except.error (GenError.typeError "not a mapping")

/-- Item assignment v[k] = x: TypeError when v is not a mapping. -/
def setIndex (v : Val) (k : String) (x : Val) : Except GenError Val :=
  match v with
  | Val.vdict d => Except.ok (Val.vdict (setKey d k x))
  | _ => Except.error (GenError.typeError "item assignment unsupported")

/-- Mapping pop with a default, d.pop(k, dflt): the value and the shrunk dict. -/
def popD (d : List (String × Val)) (k : String) (dflt : Val) :
    Val × List (String × Val) :=
  match lookupStr d k with
  | some v => (v, delKey d k)
  | none => (dflt, d)

/-- Mapping pop without a default, d.pop(k): KeyError when absent. -/
def popIndex (d : List (String × Val)) (k : String) :
    Except GenError (Val × List (String × Val)) :=
  match lookupStr d k with
  | some v => Except.ok (v, delKey d k)
  | none => Except.error (GenError.keyError k)

/-- Membership test k in v for a string key (container a mapping or a list). -/
def keyIn (k : String) : Val → Except GenError Bool
  | Val.vdict d => Except.ok (lookupStr d k).isSome
  | Val.vlist l => Except.ok (decide (Val.vstr k ∈ l))
  | _ => Except.error (GenError.typeError "membership unsupported")

/-- Membership test x in v for an arbitrary value in a list container. -/
def valMem (x container : Val) : Except GenError Bool :=
  match container with
  | Val.vlist l => Except.ok (decide (x ∈ l))
  | _ => Except.error (GenError.typeError "membership needs a list")

/-- Membership test key in v where the key is itself a value; mapping
containers match string keys only. -/
def memByVal (key container : Val) : Except GenError Bool :=
  match container with
  | Val.vdict d =>
    match key with
    | Val.vstr s => Except.ok (lookupStr d s).isSome
    | _ => Except.ok false
  | Val.vlist l => Except.ok (decide (key ∈ l))
  | _ => Except.error (GenError.typeError "membership unsupported")

/-- Item access container[key] where the key is itself a value. -/
def indexByVal (container key : Val) : Except GenError Val :=
  match container with
  | Val.vdict d =>
    match key with
    | Val.vstr s => indexDict d s
    | _ => Except.error (GenError.keyError "non-string key")
  | _ => Except.error (GenError.typeError "not a mapping")

/-- Deep merge of two values with explicit fuel. Modelled from the spec: for a
key present in both mappings whose values are both mappings, merge recursively;
otherwise the later value wins wholesale; keys keep the order of the first
mapping, new keys of the second are appended in order. -/
def mergeF : Nat → Val → Val → Val
  | 0, _, b => b
  | fuel + 1, Val.vdict a, Val.vdict b =>
      Val.vdict
        ((a.map fun kv =>
            match lookupStr b kv.1 with
            | some w => (kv.1, mergeF fuel kv.2 w)
            | none => kv) ++
          b.filter fun kv => (lookupStr a kv.1).isNone)
  | _ + 1, _, b => b

/-- Modelled from the spec: the binary Deep-Merge Engine step
(util.templates.merge is not part of the shown source). The fuel is a
structural bound that recursion into the first argument can never exhaust. -/
def merge2 (a b : Val) : Val := mergeF (valSize a) a b

/-- Modelled from the spec: merge(*objects), an order-significant fold of the
binary merge starting from the empty mapping. -/
def mergeAll (xs : List Val) : Val := xs.foldl merge2 (Val.vdict [])

/-- Recognize a by-attribute clause key and return the attribute name. -/
def byAttr : String → Option String
  | k =>
    match k.toList with
    | 'b' :: 'y' :: '-' :: rest => some (String.mk rest)
    | _ => none

/-- First branch whose key equals the attribute value (string keys only). -/
def matchBranch : List (String × Val) → Val → Option Val
  | [], _ => none
  | (k, b) :: rest, att => if att = Val.vstr k then some b else matchBranch rest att

/-- Keyed-by resolution with explicit fuel; see evaluate_keyed_by. -/
def ekbF : Nat → Val → String → List (String × Val) → Except GenError Val
  | 0, _, item_name, _ => Except.error (GenError.resolution item_name)
  | fuel + 1, value, item_name, attributes =>
    match value with
    | Val.vdict [(vk, branchesV)] =>
      match byAttr vk with
      | some attName =>
        match branchesV with
        | Val.vdict branches =>
          let attVal := (lookupStr attributes attName).getD Val.vnone
          match matchBranch branches attVal with
          | some b => ekbF fuel b item_name attributes
          | none =>
            match lookupStr branches "default" with
            | some b => ekbF fuel b item_name attributes
            | none => Except.error (GenError.resolution item_name)
        | _ => Except.error (GenError.typeError item_name)
      | none => Except.ok value
    | _ => Except.ok value

/-- Modelled from the spec: the Keyed-By Resolver (util.keyed_by.evaluate_keyed_by
is not part of the shown source). A literal value resolves to itself; a
one-entry mapping whose key is by-<attribute> selects the branch matching the
attribute value from the context, else the default branch, else fails with a
resolution error naming the field. The fuel is a structural bound that the
descent into branches can never exhaust. -/
def evaluate_keyed_by (value : Val) (item_name : String)
    (attributes : List (String × Val)) : Except GenError Val :=
  ekbF (valSize value) value item_name attributes

/-- Models Python str.format with named placeholders over a template without
brace escapes, as used for pool-id templates: inBrace and acc carry the state
of an open placeholder. -/
def fmtChars (variant : List (String × Val)) (inBrace : Bool) (acc : List Char) :
    List Char → Except GenError String
  | [] =>
    if inBrace then Except.error (GenError.valueError "unmatched brace")
    else Except.ok ""
  | c :: rest =>
    if inBrace then
      if c = Char.ofNat 125 then
        match lookupStr variant (String.mk acc.reverse) with
        | some v =>
          match fmtChars variant false [] rest with
          | Except.ok t => Except.ok (pyStr v ++ t)
          | Except.error e => Except.error e
        | none => Except.error (GenError.keyError (String.mk acc.reverse))
      else fmtChars variant true (c :: acc) rest
    else
      if c = Char.ofNat 123 then fmtChars variant true [] rest
      else if c = Char.ofNat 125 then
        Except.error (GenError.valueError "single closing brace")
      else
        match fmtChars variant false [] rest with
        | Except.ok t => Except.ok (String.singleton c ++ t)
        | Except.error e => Except.error e

/-- Models pool_id.format(**variant): substitute each named placeholder with
the rendered variant attribute, failing when the template names an attribute
the variant does not define. -/
def formatStr (template : String) (variant : List (String × Val)) :
    Except GenError String :=
  fmtChars variant false [] template.toList

/-- Models s.split(sep, 1) for the dot separator followed by unpacking into two
names: the text before and after the first dot, a ValueError when no dot. -/
def splitCharOnce : List Char → Option (List Char × List Char)
  | [] => none
  | c :: rest =>
    if c = '.' then some ([], rest)
    else
      match splitCharOnce rest with
      | some p => some (c :: p.1, p.2)
      | none => none

def splitDot1 (s : String) : Except GenError (String × String) :=
  match splitCharOnce s.toList with
  | some p => Except.ok (String.mk p.1, String.mk p.2)
  | none => Except.error (GenError.valueError "not enough values to unpack")

/-- Modelled from the spec: the environment facts provider (ciconfig.environment
is not part of the shown source). envVal stands for the environment object
itself as it appears when inserted into an attribute context. -/
structure Environment where
  aws_config : Val
  azure_config : Val
  google_config : Val
  worker_manager : Val
  envVal : Val
deriving DecidableEq, Repr

/-- Modelled from the spec: the image lookup (ciconfig.worker_images is not part
of the shown source): per provider either a constant image identifier or a
mapping keyed by region. -/
structure WorkerImage where
  clouds : List (String × Val)
deriving DecidableEq, Repr

/-- Modelled from the spec: image.image_id(provider_id, region) for the
region-scoped providers; failure to find an image is fatal for the pool. -/
def WorkerImage.image_id_region (image : WorkerImage) (provider_id region : Val) :
    Except GenError String :=
  match provider_id with
  | Val.vstr p =>
    match lookupStr image.clouds p with
    | some (Val.vstr s) => Except.ok s
    | some (Val.vdict m) =>
      match region with
      | Val.vstr r =>
        match lookupStr m r with
        | some (Val.vstr s) => Except.ok s
        | _ => Except.error (GenError.keyError "image for region")
      | _ => Except.error (GenError.keyError "image region")
    | _ => Except.error (GenError.keyError "image for provider")
  | _ => Except.error (GenError.keyError "image provider")

/-- Modelled from the spec: image.image_id(provider_id) for the provider-scoped
form used by the google generator. -/
def WorkerImage.image_id_provider (image : WorkerImage) (provider_id : Val) :
    Except GenError String :=
  match provider_id with
  | Val.vstr p =>
    match lookupStr image.clouds p with
    | some (Val.vstr s) => Except.ok s
    | _ => Except.error (GenError.keyError "image for provider")
  | _ => Except.error (GenError.keyError "image provider")

/-- Lookup worker_images[name]: KeyError when the image name is unknown. -/
def lookupImage (worker_images : List (String × WorkerImage)) (name : Val) :
    Except GenError WorkerImage :=
  match name with
  | Val.vstr s =>
    match lookupStr worker_images s with
    | some img => Except.ok img
    | none => Except.error (GenError.keyError s)
  | _ => Except.error (GenError.keyError "image name")

/-- Modelled from the spec: a raw pool definition from the declarative source
loader (ciconfig.worker_pools is not part of the shown source); variants is the
list of variant attribute-sets. -/
structure ConfigWorkerPool where
  pool_id : String
  description : String
  owner : String
  provider_id : Val
  config : Val
  email_on_error : Bool
  variants : List (List (String × Val))
deriving DecidableEq, Repr

/-- Modelled from the spec: the resource record handed to the external resource
sink (the tcadmin WorkerPool constructor is not part of the shown source). -/
structure WorkerPool where
  workerPoolId : String
  description : String
  owner : String
  providerId : Val
  config : Val
  emailOnError : Bool
deriving DecidableEq, Repr

/-- Embedding of is_invalid_aws_instance_type, lines 20-25: the entry scan part,
with the Python any and lazy and-chain short-circuit semantics. -/
def anyInvalidEntry (zone : Val) (family : String) : List Val → Except GenError Bool
  | [] => pure false
  | entry :: rest => do
    let zs ← indexVal entry "zones"
    let zin ← valMem zone zs
    if zin then do
      let fams ← indexVal entry "families"
      let fin2 ← valMem (Val.vstr family) fams
      if fin2 then pure true else anyInvalidEntry zone family rest
    else anyInvalidEntry zone family rest

/-- Embedding of is_invalid_aws_instance_type, lines 20-25: split the instance
type at the first dot into family and size, then scan the invalid-instances
table for an entry whose zones contain the zone and whose families contain the
family. -/
def is_invalid_aws_instance_type (invalid_instances zone instance_type : Val) :
    Except GenError Bool := do
  let s ← asStr instance_type
  let fs ← splitDot1 s
  let entries ← asList invalid_instances
  anyInvalidEntry zone fs.1 entries

/-- Embedding of _validate_instance_capacity, lines 28-51: the per-entry loop. -/
def validate_each (pool_id : String) (implementation : Val) :
    List Val → Except GenError Unit
  | [] => pure ()
  | instance_type :: rest => do
    let c1 ← keyIn "capacity" instance_type
    if c1 then
      Except.error (GenError.valueError
        ("To set capacity per instance for an instance type, set capacityPerInstance in worker " ++ pool_id))
    else do
      let wc ← dictGetD instance_type "worker-config" (Val.vdict [])
      let c2 ← keyIn "capacity" wc
      if c2 then
        Except.error (GenError.valueError
          ("To set capacity per instance for an instance type, set capacityPerInstance on the instance type, rather than the worker config in worker " ++ pool_id))
      else do
        let cap ← dictGetD instance_type "capacityPerInstance" (Val.vint 1)
        if cap ≠ Val.vint 1 ∧ implementation ≠ Val.vstr "docker-worker" then
          Except.error (GenError.valueError
            (pyStr implementation ++ " does not support capacity-per-instance not equal 1 in worker " ++ pool_id))
        else validate_each pool_id implementation rest

/-- Embedding of _validate_instance_capacity, lines 28-51. -/
def validate_instance_capacity (pool_id : String) (implementation : Val)
    (instance_types : Val) : Except GenError Unit := do
  let its ← asList instance_types
  validate_each pool_id implementation its

/-- The loop-invariant arguments of the aws generator dimension loops. -/
structure AwsCtx where
  aws_config : Val
  pool_id : String
  security : Val
  spot : Val
  user_data : Val
  implementation : Val
  worker_config : Val
  image : WorkerImage
  provider_id : Val
  instance_types : List Val

/-- Embedding of lines 102-112: the per-instance worker configuration, merging
the pool worker config, the instance-type override and, for docker-worker
only, the explicit capacity field. -/
def aws_instance_worker_config (ctx : AwsCtx) (instance_type : Val) :
    Except GenError Val := do
  let itwc ← dictGetD instance_type "worker-config" (Val.vdict [])
  if ctx.implementation = Val.vstr "docker-worker" then do
    let cap ← dictGetD instance_type "capacityPerInstance" (Val.vint 1)
    pure (mergeAll [ctx.worker_config, itwc, Val.vdict [("capacity", cap)]])
  else
    pure (mergeAll [ctx.worker_config, itwc])

/-- Embedding of lines 133-136: the spot market marker set into the low-level
launch payload when the spot flag is truthy. -/
def aws_apply_spot (spot lc1 : Val) : Except GenError Val :=
  if truthy spot then
    setIndex lc1 "InstanceMarketOptions" (Val.vdict [("MarketType", Val.vstr "spot")])
  else pure lc1

/-- Embedding of the innermost aws loop, lines 95-137: one launch configuration
per instance type not filtered out by the invalid-instances table. -/
def aws_for_instance_types (ctx : AwsCtx)
    (region availability_zone subnet_id security_groups : Val) :
    List Val → Except GenError (List Val)
  | [] => pure []
  | instance_type :: rest => do
    let invalid_instances ← indexVal ctx.aws_config "invalid-instances"
    let itName ← indexVal instance_type "instanceType"
    let inv ← is_invalid_aws_instance_type invalid_instances availability_zone itName
    if inv then
      aws_for_instance_types ctx region availability_zone subnet_id security_groups rest
    else do
      let instance_worker_config ← aws_instance_worker_config ctx instance_type
      let cpi ← dictGetD instance_type "capacityPerInstance" (Val.vint 1)
      let imgId ← WorkerImage.image_id_region ctx.image ctx.provider_id region
      let launchConfig0 := Val.vdict [
        ("ImageId", Val.vstr imgId),
        ("Placement", Val.vdict [("AvailabilityZone", availability_zone)]),
        ("SubnetId", subnet_id),
        ("SecurityGroupIds", security_groups),
        ("InstanceType", itName)]
      let audBase ← asDict ctx.user_data
      let itaud ← dictGetD instance_type "additional-user-data" (Val.vdict [])
      let itaudD ← asDict itaud
      let additionalUserData := updateDict (updateDict [] audBase) itaudD
      let itlc ← dictGetD instance_type "launchConfig" (Val.vdict [])
      let launchConfig1 := mergeAll [launchConfig0, itlc]
      let launchConfig2 ← aws_apply_spot ctx.spot launchConfig1
      let lc := Val.vdict [
        ("capacityPerInstance", cpi),
        ("region", region),
        ("launchConfig", launchConfig2),
        ("workerConfig", instance_worker_config),
        ("additionalUserData", Val.vdict additionalUserData)]
      let rest2 ← aws_for_instance_types ctx region availability_zone subnet_id security_groups rest
      pure (lc :: rest2)

/-- Embedding of the aws availability-zone loop, lines 88-137: the subnet id is
keyed by availability zone. -/
def aws_for_zones (ctx : AwsCtx) (region security_groups : Val) :
    List Val → Except GenError (List Val)
  | [] => pure []
  | availability_zone :: rest => do
    let snField ← indexVal ctx.aws_config "subnet-id"
    let subnet_id ← evaluate_keyed_by snField ctx.pool_id
      [("availability-zone", availability_zone)]
    let here ← aws_for_instance_types ctx region availability_zone subnet_id
      security_groups ctx.instance_types
    let there ← aws_for_zones ctx region security_groups rest
    pure (here ++ there)

/-- Embedding of the aws region loop, lines 79-137: availability zones and
security groups are keyed by region (and security). -/
def aws_for_regions (ctx : AwsCtx) : List Val → Except GenError (List Val)
  | [] => pure []
  | region :: rest => do
    let azsField ← indexVal ctx.aws_config "availability-zones"
    let azsV ← evaluate_keyed_by azsField ctx.pool_id [("region", region)]
    let sgField ← indexVal ctx.aws_config "security-groups"
    let security_groups ← evaluate_keyed_by sgField ctx.pool_id
      [("region", region), ("security", ctx.security)]
    let azs ← asList azsV
    let here ← aws_for_zones ctx region security_groups azs
    let there ← aws_for_regions ctx rest
    pure (here ++ there)

/-- Embedding of get_aws_provider_config, lines 53-144. -/
def get_aws_provider_config (environment : Environment) (provider_id : Val)
    (pool_id : String) (config : Val)
    (worker_images : List (String × WorkerImage)) (defaults : Val) :
    Except GenError Val := do
  let cfg0 ← asDict config
  let p1 ← popIndex cfg0 "regions"
  let regionsV := p1.1
  let cfg1 := p1.2
  let imageName ← indexDict cfg1 "image"
  let image ← lookupImage worker_images imageName
  let instance_typesV ← indexDict cfg1 "instance_types"
  let p2 := popD cfg1 "security" (Val.vstr "untrusted")
  let security := p2.1
  let p3 := popD p2.2 "spot" (Val.vbool true)
  let spot := p3.1
  let p4 := popD p3.2 "additional-user-data" (Val.vdict [])
  let user_data := p4.1
  let p5 := popD p4.2 "implementation" (Val.vstr "docker-worker")
  let implementation := p5.1
  let dflts ← evaluate_keyed_by defaults "defaults" [("provider", provider_id)]
  let aws_config := environment.aws_config
  let dlife ← dictGetD dflts "lifecycle" (Val.vdict [])
  let p6 := popD p5.2 "lifecycle" (Val.vdict [])
  let clife := p6.1
  let cfg6 := p6.2
  let lifecycle := mergeAll [dlife, clife]
  let dwc ← dictGetD dflts "worker-config" (Val.vdict [])
  let worker_config0 ← evaluate_keyed_by dwc pool_id [("implementation", implementation)]
  let worker_config := mergeAll [worker_config0, (lookupStr cfg6 "worker-config").getD (Val.vdict [])]
  validate_instance_capacity pool_id implementation instance_typesV
  let instance_types ← asList instance_typesV
  let regions ← asList regionsV
  let ctx : AwsCtx := ⟨aws_config, pool_id, security, spot, user_data,
    implementation, worker_config, image, provider_id, instance_types⟩
  let launch_configs ← aws_for_regions ctx regions
  let maxCapacity ← indexDict cfg6 "maxCapacity"
  pure (Val.vdict [
    ("minCapacity", (lookupStr cfg6 "minCapacity").getD (Val.vint 0)),
    ("maxCapacity", maxCapacity),
    ("lifecycle", lifecycle),
    ("launchConfigs", Val.vlist launch_configs)])

/-- The loop-invariant arguments of the azure generator dimension loops. -/
structure AzureCtx where
  azure_config : Val
  purpose : Val
  image_rgroup : Val
  tags : Val
  worker_config : Val
  image : WorkerImage
  provider_id : Val

/-- Remove every dash from a string, models location.replace of lines 179. -/
def stripDashes (s : String) : String :=
  String.mk (s.toList.filter fun c => !(c = '-'))

/-- Embedding of the inner azure vmSize loop, lines 177-208: one launch
configuration per location and size, merged with the per-size launchConfig
override. -/
def azure_for_sizes (ctx : AzureCtx) (location : Val) :
    List Val → Except GenError (List Val)
  | [] => pure []
  | vmSize :: rest => do
    let locStr ← asStr location
    let loc := stripDashes locStr
    let imageId ← WorkerImage.image_id_region ctx.image ctx.provider_id location
    let subscriptionV ← indexVal ctx.azure_config "subscription"
    let subscription_id := "/subscriptions/" ++ pyStr subscriptionV
    let resource_suffix := pyStr location ++ "-" ++ pyStr ctx.purpose
    let rgroup := "rg-" ++ resource_suffix
    let vnet := "vn-" ++ resource_suffix
    let snet := "sn-" ++ resource_suffix
    let subnetId := subscription_id ++ "/resourceGroups/" ++ rgroup ++
      "/providers/Microsoft.Network/virtualNetworks/" ++ vnet ++ "/subnets/" ++ snet
    let imageReference_id := subscription_id ++ "/resourceGroups/" ++
      pyStr ctx.image_rgroup ++ "/providers/Microsoft.Compute/images/" ++ imageId
    let launch_config := Val.vdict [
      ("location", Val.vstr loc),
      ("subnetId", Val.vstr subnetId),
      ("tags", mergeAll [ctx.tags]),
      ("workerConfig", mergeAll [ctx.worker_config]),
      ("hardwareProfile", Val.vdict [("vmSize", vmSize)]),
      ("priority", Val.vstr "spot"),
      ("billingProfile", Val.vdict [("maxPrice", Val.vint (-1))]),
      ("evictionPolicy", Val.vstr "Delete"),
      ("capacityPerInstance", Val.vint 1),
      ("storageProfile", Val.vdict [("imageReference",
        Val.vdict [("id", Val.vstr imageReference_id)])])]
    let override ← dictGetD vmSize "launchConfig" (Val.vdict [])
    let merged := mergeAll [launch_config, override]
    let rest2 ← azure_for_sizes ctx location rest
    pure (merged :: rest2)

/-- Embedding of the azure location loop, lines 176-208. -/
def azure_for_locations (ctx : AzureCtx) (vmSizes : List Val) :
    List Val → Except GenError (List Val)
  | [] => pure []
  | location :: rest => do
    let here ← azure_for_sizes ctx location vmSizes
    let there ← azure_for_locations ctx vmSizes rest
    pure (here ++ there)

/-- Embedding of get_azure_provider_config, lines 147-215. -/
def get_azure_provider_config (environment : Environment) (provider_id : Val)
    (pool_id : String) (config : Val)
    (worker_images : List (String × WorkerImage)) (defaults : Val) :
    Except GenError Val := do
  let cfg0 ← asDict config
  let p1 ← popIndex cfg0 "locations"
  let locationsV := p1.1
  let p2 ← popIndex p1.2 "image_resource_group"
  let image_rgroup := p2.1
  let cfg2 := p2.2
  let vmSizesV ← indexDict cfg2 "vmSizes"
  let purpose ← indexDict cfg2 "worker-purpose"
  let imageName ← indexDict cfg2 "image"
  let image ← lookupImage worker_images imageName
  let p3 := popD cfg2 "additional-user-data" (Val.vdict [])
  let p4 := popD p3.2 "implementation"
    (Val.vstr "generic-worker/worker-runner-windows")
  let implementation := p4.1
  let p5 := popD p4.2 "spot" (Val.vbool true)
  let dflts ← evaluate_keyed_by defaults "defaults" [("provider", provider_id)]
  let azure_config := environment.azure_config
  let dlife ← dictGetD dflts "lifecycle" (Val.vdict [])
  let p6 := popD p5.2 "lifecycle" (Val.vdict [])
  let clife := p6.1
  let cfg6 := p6.2
  let lifecycle := mergeAll [dlife, clife]
  let dwc ← dictGetD dflts "worker-config" (Val.vdict [])
  let worker_config0 ← evaluate_keyed_by dwc pool_id [("implementation", implementation)]
  let worker_config := mergeAll [worker_config0, (lookupStr cfg6 "worker-config").getD (Val.vdict [])]
  let tags := (lookupStr cfg6 "tags").getD (Val.vdict [])
  let vmSizes ← asList vmSizesV
  let locations ← asList locationsV
  let ctx : AzureCtx := ⟨azure_config, purpose, image_rgroup, tags,
    worker_config, image, provider_id⟩
  let launch_configs ← azure_for_locations ctx vmSizes locations
  let maxCapacity ← indexDict cfg6 "maxCapacity"
  pure (Val.vdict [
    ("minCapacity", (lookupStr cfg6 "minCapacity").getD (Val.vint 0)),
    ("maxCapacity", maxCapacity),
    ("lifecycle", lifecycle),
    ("launchConfigs", Val.vlist launch_configs)])

/-- The loop-invariant arguments of the google generator dimension loops. -/
structure GoogleCtx where
  google_config : Val
  pool_id : String
  implementation : Val
  worker_config : Val
  image_name : String
  instance_types : List Val

/-- Generic elementwise traversal in the error monad (list comprehension with
possible failure). -/
def mapExcept {α β : Type} (f : α → Except GenError β) :
    List α → Except GenError (List β)
  | [] => pure []
  | x :: rest => do
    let y ← f x
    let ys ← mapExcept f rest
    pure (y :: ys)

/-- Embedding of the google disk loop body, lines 250-252: substitute the image
sentinel inside initializeParams. -/
def google_fix_disk (image_name : String) (disk : Val) : Except GenError Val := do
  let dd ← asDict disk
  let ipV ← indexDict dd "initializeParams"
  let ipd ← asDict ipV
  if lookupStr ipd "sourceImage" = some (Val.vstr "<image>") then
    pure (Val.vdict (setKey dd "initializeParams"
      (Val.vdict (setKey ipd "sourceImage" (Val.vstr image_name)))))
  else pure disk

/-- Embedding of lines 257-261: for docker-worker only, the explicit capacity
field merged into the worker configuration. -/
def google_worker_config (ctx : GoogleCtx) (instance_type wc0 : Val) :
    Except GenError Val :=
  if ctx.implementation = Val.vstr "docker-worker" then do
    let cap ← dictGetD instance_type "capacityPerInstance" (Val.vint 1)
    pure (mergeAll [wc0, Val.vdict [("capacity", cap)]])
  else pure wc0

/-- Embedding of the innermost google loop, lines 246-273: the instance type is
deep-copied as the base, capacityPerInstance defaulted, region and zone set,
disks fixed, worker config merged, machine type formatted, preemptible
scheduling attached. -/
def google_for_types (ctx : GoogleCtx) (region zone : Val) :
    List Val → Except GenError (List Val)
  | [] => pure []
  | instance_type :: rest => do
    let d0 ← asDict instance_type
    let d1 := if (lookupStr d0 "capacityPerInstance").isSome then d0
      else d0 ++ [("capacityPerInstance", Val.vint 1)]
    let d2 := updateDict d1 [("region", region), ("zone", zone)]
    let disksV ← indexDict d2 "disks"
    let disks ← asList disksV
    let disks2 ← mapExcept (google_fix_disk ctx.image_name) disks
    let d3 := setKey d2 "disks" (Val.vlist disks2)
    let pw := popD d3 "worker-config" (Val.vdict [])
    let d4 := pw.2
    let wc1 ← google_worker_config ctx instance_type
      (mergeAll [ctx.worker_config, pw.1])
    let d5 := setKey d4 "workerConfig" wc1
    let pm ← popIndex d5 "machine_type"
    let machineType := "zones/" ++ pyStr zone ++ "/machineTypes/" ++ pyStr pm.1
    let d7 := setKey pm.2 "machineType" (Val.vstr machineType)
    let d8 := setKey d7 "scheduling" (Val.vdict [
      ("onHostMaintenance", Val.vstr "terminate"),
      ("automaticRestart", Val.vbool false),
      ("preemptible", Val.vbool true)])
    let rest2 ← google_for_types ctx region zone rest
    pure (Val.vdict d8 :: rest2)

/-- Embedding of the google zone loop, lines 245-273. -/
def google_for_zones (ctx : GoogleCtx) (region : Val) :
    List Val → Except GenError (List Val)
  | [] => pure []
  | zone :: rest => do
    let here ← google_for_types ctx region zone ctx.instance_types
    let there ← google_for_zones ctx region rest
    pure (here ++ there)

/-- Embedding of the google region loop, lines 243-273: zones are keyed by
region. -/
def google_for_regions (ctx : GoogleCtx) : List Val → Except GenError (List Val)
  | [] => pure []
  | region :: rest => do
    let zonesField ← indexVal ctx.google_config "zones"
    let zonesV ← evaluate_keyed_by zonesField ctx.pool_id [("region", region)]
    let zones ← asList zonesV
    let here ← google_for_zones ctx region zones
    let there ← google_for_regions ctx rest
    pure (here ++ there)

/-- Embedding of get_google_provider_config, lines 218-280. -/
def get_google_provider_config (environment : Environment) (provider_id : Val)
    (pool_id : String) (config : Val)
    (worker_images : List (String × WorkerImage)) (defaults : Val) :
    Except GenError Val := do
  let cfg0 ← asDict config
  let p1 ← popIndex cfg0 "regions"
  let regionsV := p1.1
  let cfg1 := p1.2
  let imageName ← indexDict cfg1 "image"
  let image ← lookupImage worker_images imageName
  let instance_typesV ← indexDict cfg1 "instance_types"
  let p2 := popD cfg1 "implementation" (Val.vstr "docker-worker")
  let implementation := p2.1
  let dflts ← evaluate_keyed_by defaults "defaults" [("provider", provider_id)]
  let google_config := environment.google_config
  let dlife ← dictGetD dflts "lifecycle" (Val.vdict [])
  let p3 := popD p2.2 "lifecycle" (Val.vdict [])
  let clife := p3.1
  let cfg3 := p3.2
  let lifecycle := mergeAll [dlife, clife]
  let dwc ← dictGetD dflts "worker-config" (Val.vdict [])
  let worker_config0 ← evaluate_keyed_by dwc pool_id [("implementation", implementation)]
  let worker_config := mergeAll [worker_config0, (lookupStr cfg3 "worker-config").getD (Val.vdict [])]
  let image_name ← WorkerImage.image_id_provider image provider_id
  validate_instance_capacity pool_id implementation instance_typesV
  let instance_types ← asList instance_typesV
  let regions ← asList regionsV
  let ctx : GoogleCtx := ⟨google_config, pool_id, implementation,
    worker_config, image_name, instance_types⟩
  let launch_configs ← google_for_regions ctx regions
  let maxCapacity ← indexDict cfg3 "maxCapacity"
  pure (Val.vdict [
    ("minCapacity", (lookupStr cfg3 "minCapacity").getD (Val.vint 0)),
    ("maxCapacity", maxCapacity),
    ("lifecycle", lifecycle),
    ("launchConfigs", Val.vlist launch_configs)])

/-- Embedding of the PROVIDER_IMPLEMENTATIONS dispatch table, lines 283-287:
lookup by implementation name is a KeyError for unknown implementations. -/
def PROVIDER_IMPLEMENTATIONS (implementation : Val) :
    Except GenError (Environment → Val → String → Val →
      List (String × WorkerImage) → Val → Except GenError Val) :=
  match implementation with
  | Val.vstr "aws" => Except.ok get_aws_provider_config
  | Val.vstr "google" => Except.ok get_google_provider_config
  | Val.vstr "azure" => Except.ok get_azure_provider_config
  | _ => Except.error (GenError.keyError "provider implementation")

/-- Embedding of make_worker_pool, lines 290-313: dispatch to the provider
generator when the pool provider is generator-backed, otherwise pass the raw
configuration through, then build the resource record. -/
def make_worker_pool (environment : Environment) (wp : ConfigWorkerPool)
    (worker_images : List (String × WorkerImage)) (worker_defaults : Val) :
    Except GenError WorkerPool := do
  let providersV ← indexVal environment.worker_manager "providers"
  let isGen ← memByVal wp.provider_id providersV
  let config ←
    if isGen then do
      let entry ← indexByVal providersV wp.provider_id
      let implV ← indexVal entry "implementation"
      let gen ← PROVIDER_IMPLEMENTATIONS implV
      gen environment wp.provider_id wp.pool_id wp.config worker_images worker_defaults
    else
      pure wp.config
  pure { workerPoolId := wp.pool_id, description := wp.description,
         owner := wp.owner, providerId := wp.provider_id, config := config,
         emailOnError := wp.email_on_error }

/-- Embedding of the update_config inner function of generate_pool_variants,
lines 322-331, generalized over the processed key list: each listed key present
in the configuration is resolved through the keyed-by resolver, replaced when
resolution yields a value and deleted when it yields none. -/
def update_config_keys (name : String) (attributes : List (String × Val)) :
    List String → List (String × Val) → Except GenError (List (String × Val))
  | [], d => pure d
  | key :: rest, d =>
    match lookupStr d key with
    | some v => do
      let value ← evaluate_keyed_by v name attributes
      if value = Val.vnone then update_config_keys name attributes rest (delKey d key)
      else update_config_keys name attributes rest (setKey d key value)
    | none => update_config_keys name attributes rest d

/-- Embedding of update_config, lines 322-331, at its fixed key list. -/
def update_config (config : Val) (name : String)
    (attributes : List (String × Val)) : Except GenError Val := do
  let d ← asDict config
  let d2 ← update_config_keys name attributes
    ["image", "maxCapacity", "minCapacity", "security"] d
  pure (Val.vdict d2)

/-- Embedding of the per-variant body of generate_pool_variants, lines 334-345:
format the pool id from the variant, build the attribute context from the
environment and the variant, resolve the provider id and the keyed
configuration fields, and mark the result as already expanded. -/
def expandVariant (environment : Environment) (wp : ConfigWorkerPool)
    (variant : List (String × Val)) : Except GenError ConfigWorkerPool := do
  let name ← formatStr wp.pool_id variant
  let attributes := updateDict [("environment", environment.envVal)] variant
  let provider_id ← evaluate_keyed_by wp.provider_id name attributes
  let config ← update_config wp.config name attributes
  pure { wp with
    pool_id := name
    provider_id := provider_id
    config := config
    variants := [[]] }

/-- The (definition, variant) pairs the expander iterates, in order. -/
def poolItems : List ConfigWorkerPool → List (ConfigWorkerPool × List (String × Val))
  | [] => []
  | wp :: rest => wp.variants.map (fun v => (wp, v)) ++ poolItems rest

/-- Embedding of generate_pool_variants, lines 316-345, as the list of all
expanded definitions (the Python generator consumed to a list). -/
def generate_pool_variants (worker_pools : List ConfigWorkerPool)
    (environment : Environment) : Except GenError (List ConfigWorkerPool) :=
  mapExcept (fun wv => expandVariant environment wv.1 wv.2) (poolItems worker_pools)

/-- One pool item processed end to end by the update_resources loop: expansion
of one variant followed by assembly of its resource record. -/
def assemble (environment : Environment)
    (worker_images : List (String × WorkerImage)) (worker_defaults : Val)
    (wv : ConfigWorkerPool × List (String × Val)) : Except GenError WorkerPool := do
  let wp ← expandVariant environment wv.1 wv.2
  make_worker_pool environment wp worker_images worker_defaults

/-- Driver loop with the Python exception semantics: items are processed in
order, results of items before the first failure are kept (they were already
added to the resource collection), and the first failure aborts the loop. -/
def runSteps {α β : Type} (f : α → Except GenError β) :
    List α → List β × Option GenError
  | [] => ([], none)
  | x :: rest =>
    match f x with
    | Except.error e => ([], some e)
    | Except.ok y =>
      let r := runSteps f rest
      (y :: r.1, r.2)

/-- Embedding of update_resources, lines 348-367, over already-fetched inputs:
the resource records added before the run ends, together with the error that
aborted it, if any. -/
def update_resources (environment : Environment)
    (worker_pools : List ConfigWorkerPool)
    (worker_images : List (String × WorkerImage)) (worker_defaults : Val) :
    List WorkerPool × Option GenError :=
  runSteps (assemble environment worker_images worker_defaults)
    (poolItems worker_pools)

/-- The named field of a successful generator result. -/
def resultField (r : Except GenError Val) (k : String) : Option Val :=
  match r with
  | Except.ok (Val.vdict d) => lookupStr d k
  | _ => none

/-- The launch configurations of a successful generator result. -/
def launchConfigsOf (r : Except GenError Val) : List Val :=
  match resultField r "launchConfigs" with
  | some (Val.vlist l) => l
  | _ => []

/-- A field of one launch configuration. -/
def lcField (lc : Val) (k : String) : Option Val :=
  match lc with
  | Val.vdict d => lookupStr d k
  | _ => none

/-- Keys of a dict model are pairwise distinct (the Python dict invariant). -/
def keysNodup (d : List (String × Val)) : Prop := (d.map Prod.fst).Nodup

/-- Example environment with one generator-backed provider per cloud. -/
def envEx : Environment := {
  aws_config := Val.vdict [
    ("availability-zones", Val.vlist [Val.vstr "us-east-1a"]),
    ("security-groups", Val.vlist [Val.vstr "sg-1"]),
    ("subnet-id", Val.vstr "subnet-1"),
    ("invalid-instances", Val.vlist [])]
  azure_config := Val.vdict [("subscription", Val.vstr "sub-1")]
  google_config := Val.vdict [("zones", Val.vlist [Val.vstr "us-central1-a"])]
  worker_manager := Val.vdict [("providers", Val.vdict [
    ("aws-provider", Val.vdict [("implementation", Val.vstr "aws")]),
    ("azure-provider", Val.vdict [("implementation", Val.vstr "azure")]),
    ("google-provider", Val.vdict [("implementation", Val.vstr "google")])])]
  envVal := Val.vstr "prod" }

/-- Example image table: a constant image identifier per provider. -/
def imgsEx : List (String × WorkerImage) :=
  [("win", { clouds := [("aws-provider", Val.vstr "ami-1"),
                        ("azure-provider", Val.vstr "az-img-1"),
                        ("google-provider", Val.vstr "gcp-img-1")] })]

/-- Example pool definition with a templated pool id and two variants. -/
def wpLetters : ConfigWorkerPool := {
  pool_id := "pool-{letter}"
  description := "letters"
  owner := "owner"
  provider_id := Val.vstr "static"
  config := Val.vdict [("maxCapacity", Val.vdict [("by-letter",
    Val.vdict [("a", Val.vint 1), ("default", Val.vint 2)])])]
  email_on_error := true
  variants := [[("letter", Val.vstr "a")], [("letter", Val.vstr "b")]] }

/-- Example pool definition whose variant list is empty. -/
def wpNoVariants : ConfigWorkerPool := {
  pool_id := "pool-fixed"
  description := "fixed"
  owner := "owner"
  provider_id := Val.vstr "static"
  config := Val.vdict [("maxCapacity", Val.vint 3)]
  email_on_error := false
  variants := [] }

/-- Pool whose aws generation fails immediately: no regions key. -/
def wpBroken : ConfigWorkerPool := {
  pool_id := "pool-broken"
  description := "broken"
  owner := "owner"
  provider_id := Val.vstr "aws-provider"
  config := Val.vdict []
  email_on_error := false
  variants := [[]] }

/-- Pass-through pool on a provider that is not generator-backed. -/
def wpPass : ConfigWorkerPool := {
  pool_id := "pool-pass"
  description := "pass"
  owner := "owner"
  provider_id := Val.vstr "static"
  config := Val.vdict [("maxCapacity", Val.vint 3)]
  email_on_error := false
  variants := [[]] }

/-- The two expanded definitions of the letters example. -/
def expandedLetterA : ConfigWorkerPool := {
  pool_id := "pool-a"
  description := "letters"
  owner := "owner"
  provider_id := Val.vstr "static"
  config := Val.vdict [("maxCapacity", Val.vint 1)]
  email_on_error := true
  variants := [[]] }

def expandedLetterB : ConfigWorkerPool := {
  pool_id := "pool-b"
  description := "letters"
  owner := "owner"
  provider_id := Val.vstr "static"
  config := Val.vdict [("maxCapacity", Val.vint 2)]
  email_on_error := true
  variants := [[]] }

/-- Configuration with an instance type string holding no dot. -/
def cfgNoDot : Val := Val.vdict [
  ("regions", Val.vlist [Val.vstr "us-east-1"]),
  ("image", Val.vstr "win"),
  ("instance_types", Val.vlist [Val.vdict [("instanceType", Val.vstr "m5large")]]),
  ("maxCapacity", Val.vint 1)]

/-- An invalid-instances entry in the table shape the generator expects. -/
def wfInvalidEntry (entry : Val) : Prop :=
  ∃ d zs fs, entry = Val.vdict d ∧ lookupStr d "zones" = some (Val.vlist zs) ∧
    lookupStr d "families" = some (Val.vlist fs)

/-- The entry marks the (zone, family) combination unusable: zone membership in
its zones and family membership in its families. -/
def entryMatches (zone : Val) (family : String) (entry : Val) : Prop :=
  ∃ d zs fs, entry = Val.vdict d ∧ lookupStr d "zones" = some (Val.vlist zs) ∧
    lookupStr d "families" = some (Val.vlist fs) ∧ zone ∈ zs ∧ Val.vstr family ∈ fs

/-- Environment whose invalid-instances table rules out family m5 in zone
us-east-1a. -/
def envC6 : Environment := { envEx with aws_config := Val.vdict [
  ("availability-zones", Val.vlist [Val.vstr "us-east-1a"]),
  ("security-groups", Val.vlist [Val.vstr "sg-1"]),
  ("subnet-id", Val.vstr "subnet-1"),
  ("invalid-instances", Val.vlist [Val.vdict [
    ("zones", Val.vlist [Val.vstr "us-east-1a"]),
    ("families", Val.vlist [Val.vstr "m5"])]])] }

/-- Two instance types, one of family m5 and one of family c5. -/
def cdC6 : List (String × Val) := [
  ("regions", Val.vlist [Val.vstr "us-east-1"]),
  ("image", Val.vstr "win"),
  ("instance_types", Val.vlist [
    Val.vdict [("instanceType", Val.vstr "m5.large")],
    Val.vdict [("instanceType", Val.vstr "c5.large")]]),
  ("maxCapacity", Val.vint 10)]

def cfgC6 : Val := Val.vdict cdC6

def awsC6 : Except GenError Val :=
  get_aws_provider_config envC6 (Val.vstr "aws-provider") "pool6" cfgC6 imgsEx
    (Val.vdict [])

/-- A google pool configuration in the expected shape. -/
def cdG : List (String × Val) := [
  ("regions", Val.vlist [Val.vstr "us-central1"]),
  ("image", Val.vstr "win"),
  ("instance_types", Val.vlist [
    Val.vdict [
      ("machine_type", Val.vstr "n1-standard-4"),
      ("disks", Val.vlist [Val.vdict [("initializeParams",
        Val.vdict [("sourceImage", Val.vstr "<image>")])]])]]),
  ("maxCapacity", Val.vint 7)]

def googleC8 : Except GenError Val :=
  get_google_provider_config envEx (Val.vstr "google-provider") "pool-g"
    (Val.vdict cdG) imgsEx (Val.vdict [])

/-- An azure pool configuration with one plain size and no overrides. -/
def cdAzPlain : List (String × Val) := [
  ("locations", Val.vlist [Val.vstr "east-us"]),
  ("image_resource_group", Val.vstr "rg-images"),
  ("vmSizes", Val.vlist [Val.vdict [("vmSize", Val.vstr "Standard_F8")]]),
  ("worker-purpose", Val.vstr "builds"),
  ("image", Val.vstr "win"),
  ("maxCapacity", Val.vint 5)]

def azureC8 : Except GenError Val :=
  get_azure_provider_config envEx (Val.vstr "azure-provider") "pool-az"
    (Val.vdict cdAzPlain) imgsEx (Val.vdict [])

/-- Aws docker-worker pool with an explicit capacityPerInstance of 2. -/
def cdDock2 : List (String × Val) := [
  ("regions", Val.vlist [Val.vstr "us-east-1"]),
  ("image", Val.vstr "win"),
  ("instance_types", Val.vlist [
    Val.vdict [("instanceType", Val.vstr "m5.large"),
               ("capacityPerInstance", Val.vint 2)]]),
  ("maxCapacity", Val.vint 10)]

def awsDock2 : Except GenError Val :=
  get_aws_provider_config envEx (Val.vstr "aws-provider") "pool-d2"
    (Val.vdict cdDock2) imgsEx (Val.vdict [])

/-- Azure pool whose single size carries both a raw capacity key and a
capacityPerInstance of 2, under the non-docker default implementation. -/
def cdAzCap : List (String × Val) := [
  ("locations", Val.vlist [Val.vstr "east-us"]),
  ("image_resource_group", Val.vstr "rg-images"),
  ("vmSizes", Val.vlist [Val.vdict [
    ("vmSize", Val.vstr "Standard_F8"),
    ("capacity", Val.vint 5),
    ("capacityPerInstance", Val.vint 2)]]),
  ("worker-purpose", Val.vstr "builds"),
  ("image", Val.vstr "win"),
  ("maxCapacity", Val.vint 5)]

def azureCap : Except GenError Val :=
  get_azure_provider_config envEx (Val.vstr "azure-provider") "pool-azc"
    (Val.vdict cdAzCap) imgsEx (Val.vdict [])

/-- Azure pool whose single size carries a launchConfig override that replaces
capacityPerInstance. -/
def cdAzOvr : List (String × Val) := [
  ("locations", Val.vlist [Val.vstr "east-us"]),
  ("image_resource_group", Val.vstr "rg-images"),
  ("vmSizes", Val.vlist [Val.vdict [
    ("vmSize", Val.vstr "Standard_F8"),
    ("launchConfig", Val.vdict [("capacityPerInstance", Val.vint 2)])]]),
  ("worker-purpose", Val.vstr "builds"),
  ("image", Val.vstr "win"),
  ("maxCapacity", Val.vint 5)]

def azureOvr : Except GenError Val :=
  get_azure_provider_config envEx (Val.vstr "azure-provider") "pool-azo"
    (Val.vdict cdAzOvr) imgsEx (Val.vdict [])

/-- Non-docker aws pool with a single instance type and its single launch
configuration. -/
def cdGW : List (String × Val) := [
  ("regions", Val.vlist [Val.vstr "us-east-1"]),
  ("image", Val.vstr "win"),
  ("instance_types", Val.vlist [Val.vdict [("instanceType", Val.vstr "m5.large")]]),
  ("implementation", Val.vstr "generic-worker"),
  ("maxCapacity", Val.vint 4)]

def lcGW : Val := Val.vdict [
  ("capacityPerInstance", Val.vint 1),
  ("region", Val.vstr "us-east-1"),
  ("launchConfig", Val.vdict [
    ("ImageId", Val.vstr "ami-1"),
    ("Placement", Val.vdict [("AvailabilityZone", Val.vstr "us-east-1a")]),
    ("SubnetId", Val.vstr "subnet-1"),
    ("SecurityGroupIds", Val.vlist [Val.vstr "sg-1"]),
    ("InstanceType", Val.vstr "m5.large"),
    ("InstanceMarketOptions", Val.vdict [("MarketType", Val.vstr "spot")])]),
  ("workerConfig", Val.vdict []),
  ("additionalUserData", Val.vdict [])]

/-- The aws generation of the spec example: one region, one availability zone
not covered by any invalid-instance entry, two instance types, default
implementation. -/
def awsC5 : Except GenError Val :=
  get_aws_provider_config envEx (Val.vstr "aws-provider") "pool5"
    (Val.vdict cdC6) imgsEx (Val.vdict [])

/-! Inversion and lookup lemmas used throughout the development. -/

theorem bindE_ok {α β : Type} {x : Except GenError α} {f : α → Except GenError β}
    {b : β} (h : x >>= f = Except.ok b) :
    ∃ a, x = Except.ok a ∧ f a = Except.ok b := by
  cases x with
  | ok a => exact ⟨a, rfl, h⟩
  | error e => exact Except.noConfusion h

theorem pureE_ok {α : Type} {a b : α}
    (h : (pure a : Except GenError α) = Except.ok b) : a = b :=
  Except.ok.inj h

theorem lookupStr_setKey_self (d : List (String × Val)) (k : String) (v : Val) :
    lookupStr (setKey d k v) k = some v := by
  induction d with
  | nil => simp [setKey, lookupStr]
  | cons kv rest ih =>
    obtain ⟨k0, v0⟩ := kv
    by_cases hk : k0 = k
    · simp [setKey, hk, lookupStr]
    · simp [setKey, hk, lookupStr, ih]

theorem lookupStr_setKey_other {k' k : String} (d : List (String × Val)) (v : Val)
    (h : k' ≠ k) : lookupStr (setKey d k v) k' = lookupStr d k' := by
  have hne : ¬ k = k' := fun hh => h hh.symm
  induction d with
  | nil => simp [setKey, lookupStr, hne]
  | cons kv rest ih =>
    obtain ⟨k0, v0⟩ := kv
    by_cases hk : k0 = k
    · subst hk
      simp [setKey, lookupStr, hne]
    · simp only [setKey, if_neg hk, lookupStr]
      by_cases hk0 : k0 = k'
      · simp [hk0]
      · simp [hk0, ih]

theorem lookupStr_delKey_other {k' k : String} (d : List (String × Val))
    (h : k' ≠ k) : lookupStr (delKey d k) k' = lookupStr d k' := by
  induction d with
  | nil => simp [delKey]
  | cons kv rest ih =>
    obtain ⟨k0, v0⟩ := kv
    by_cases hk : k0 = k
    · subst hk
      have hne : ¬ k0 = k' := fun hh => h hh.symm
      simp [delKey, lookupStr, hne]
    · simp only [delKey, if_neg hk, lookupStr]
      by_cases hk0 : k0 = k'
      · simp [hk0]
      · simp [hk0, ih]

theorem lookupStr_eq_none_of_not_mem {d : List (String × Val)} {k : String}
    (h : k ∉ d.map Prod.fst) : lookupStr d k = none := by
  induction d with
  | nil => simp [lookupStr]
  | cons kv rest ih =>
    obtain ⟨k0, v0⟩ := kv
    simp only [List.map_cons, List.mem_cons] at h
    push_neg at h
    have hne : ¬ k0 = k := fun hh => h.1 hh.symm
    simp only [lookupStr, if_neg hne]
    exact ih h.2

theorem lookupStr_delKey_self {d : List (String × Val)} (k : String)
    (h : keysNodup d) : lookupStr (delKey d k) k = none := by
  induction d with
  | nil => simp [delKey, lookupStr]
  | cons kv rest ih =>
    obtain ⟨k0, v0⟩ := kv
    simp only [keysNodup, List.map_cons, List.nodup_cons] at h
    by_cases hk : k0 = k
    · subst hk
      simp only [delKey, if_pos rfl]
      exact lookupStr_eq_none_of_not_mem h.1
    · simp only [delKey, if_neg hk, lookupStr, if_neg hk]
      exact ih h.2

theorem mem_keys_setKey (d : List (String × Val)) (k : String) (v : Val)
    (k2 : String) :
    k2 ∈ (setKey d k v).map Prod.fst ↔ k2 ∈ d.map Prod.fst ∨ k2 = k := by
  induction d with
  | nil => simp [setKey]
  | cons kv rest ih =>
    obtain ⟨k0, v0⟩ := kv
    by_cases hk : k0 = k
    · subst hk
      simp [setKey]
      tauto
    · simp [setKey, hk, ih]
      tauto

theorem keysNodup_setKey {d : List (String × Val)} (k : String) (v : Val)
    (h : keysNodup d) : keysNodup (setKey d k v) := by
  induction d with
  | nil => simp [setKey, keysNodup]
  | cons kv rest ih =>
    obtain ⟨k0, v0⟩ := kv
    simp only [keysNodup, List.map_cons, List.nodup_cons] at h
    by_cases hk : k0 = k
    · subst hk
      have heq : setKey ((k0, v0) :: rest) k0 v = (k0, v) :: rest := by
        simp [setKey]
      rw [heq]
      simp only [keysNodup, List.map_cons, List.nodup_cons]
      exact h
    · simp only [setKey, if_neg hk, keysNodup, List.map_cons, List.nodup_cons]
      refine ⟨?_, ih h.2⟩
      intro hmem
      rcases (mem_keys_setKey rest k v k0).mp hmem with h1 | h2
      · exact h.1 h1
      · exact hk h2

theorem mem_keys_delKey {d : List (String × Val)} {k k2 : String}
    (h : k2 ∈ (delKey d k).map Prod.fst) : k2 ∈ d.map Prod.fst := by
  induction d with
  | nil => simp [delKey] at h
  | cons kv rest ih =>
    obtain ⟨k0, v0⟩ := kv
    by_cases hk : k0 = k
    · subst hk
      have heq : delKey ((k0, v0) :: rest) k0 = rest := by simp [delKey]
      rw [heq] at h
      simp only [List.map_cons, List.mem_cons]
      exact Or.inr h
    · have heq : delKey ((k0, v0) :: rest) k = (k0, v0) :: delKey rest k := by
        simp [delKey, hk]
      rw [heq] at h
      simp only [List.map_cons, List.mem_cons] at h ⊢
      rcases h with h1 | h2
      · exact Or.inl h1
      · exact Or.inr (ih h2)

theorem keysNodup_delKey {d : List (String × Val)} (k : String)
    (h : keysNodup d) : keysNodup (delKey d k) := by
  induction d with
  | nil => simp [delKey, keysNodup]
  | cons kv rest ih =>
    obtain ⟨k0, v0⟩ := kv
    simp only [keysNodup, List.map_cons, List.nodup_cons] at h
    by_cases hk : k0 = k
    · subst hk
      simpa only [delKey, if_pos rfl] using h.2
    · simp only [delKey, if_neg hk, keysNodup, List.map_cons, List.nodup_cons]
      exact ⟨fun hm => h.1 (mem_keys_delKey hm), ih h.2⟩

theorem popD_fst (d : List (String × Val)) (k : String) (dflt : Val) :
    (popD d k dflt).1 = (lookupStr d k).getD dflt := by
  unfold popD
  cases lookupStr d k <;> rfl

theorem popD_snd_lookup {k' : String} (d : List (String × Val)) (k : String)
    (dflt : Val) (h : k' ≠ k) :
    lookupStr (popD d k dflt).2 k' = lookupStr d k' := by
  unfold popD
  cases lookupStr d k with
  | none => rfl
  | some v => exact lookupStr_delKey_other d h

theorem popIndex_ok {d : List (String × Val)} {k : String}
    {p : Val × List (String × Val)} (h : popIndex d k = Except.ok p) :
    lookupStr d k = some p.1 ∧ p.2 = delKey d k := by
  unfold popIndex at h
  cases hl : lookupStr d k with
  | none => rw [hl] at h; exact Except.noConfusion h
  | some v =>
    rw [hl] at h
    cases Except.ok.inj h
    exact ⟨rfl, rfl⟩

theorem popIndex_snd_lookup {d : List (String × Val)} {k : String}
    {p : Val × List (String × Val)} {k' : String}
    (h : popIndex d k = Except.ok p) (hne : k' ≠ k) :
    lookupStr p.2 k' = lookupStr d k' := by
  rw [(popIndex_ok h).2]
  exact lookupStr_delKey_other d hne

theorem lookupStr_append {α : Type} (d1 d2 : List (String × α)) (k : String) :
    lookupStr (d1 ++ d2) k =
      match lookupStr d1 k with
      | some v => some v
      | none => lookupStr d2 k := by
  induction d1 with
  | nil => simp [lookupStr]
  | cons kv rest ih =>
    obtain ⟨k0, v0⟩ := kv
    by_cases hk : k0 = k
    · simp [lookupStr, hk]
    · simp [lookupStr, hk, ih]

theorem lookupStr_updateDict_none {src : List (String × Val)} {k : String}
    (h : lookupStr src k = none) :
    ∀ dst, lookupStr (updateDict dst src) k = lookupStr dst k := by
  induction src with
  | nil => intro dst; rfl
  | cons kv rest ih =>
    obtain ⟨k0, v0⟩ := kv
    intro dst
    simp only [lookupStr] at h
    by_cases hk : k0 = k
    · simp [hk] at h
    · simp only [if_neg hk] at h
      simp only [updateDict]
      rw [ih h (setKey dst k0 v0)]
      exact lookupStr_setKey_other dst v0 (fun hh => hk hh.symm)

theorem mapExcept_ok {α β : Type} {f : α → Except GenError β} :
    ∀ {xs : List α} {ys : List β}, mapExcept f xs = Except.ok ys →
      List.Forall₂ (fun x y => f x = Except.ok y) xs ys := by
  intro xs
  induction xs with
  | nil =>
    intro ys h
    cases pureE_ok h
    exact List.Forall₂.nil
  | cons x rest ih =>
    intro ys h
    simp only [mapExcept] at h
    obtain ⟨y, hy, h⟩ := bindE_ok h
    obtain ⟨ys2, hys2, h⟩ := bindE_ok h
    cases pureE_ok h
    exact List.Forall₂.cons hy (ih hys2)

theorem runSteps_prefix_error {α β : Type} (f : α → Except GenError β) :
    ∀ (pre : List α) (bad : α) (post : List α) (e : GenError),
      (∀ x ∈ pre, isOkE (f x) = true) → f bad = Except.error e →
      runSteps f (pre ++ bad :: post) =
        (pre.filterMap fun x => okVal (f x), some e) := by
  intro pre
  induction pre with
  | nil =>
    intro bad post e _ hbad
    simp [runSteps, hbad]
  | cons x rest ih =>
    intro bad post e hpre hbad
    have hx := hpre x (List.mem_cons_self x rest)
    cases hfx : f x with
    | error e2 =>
      rw [hfx] at hx
      simp [isOkE] at hx
    | ok y =>
      simp only [List.cons_append, runSteps, hfx]
      simp only [List.append_eq]
      rw [ih bad post e (fun z hz => hpre z (List.mem_cons_of_mem x hz)) hbad]
      simp [List.filterMap_cons, hfx, okVal]

theorem expandVariant_ok {env : Environment} {wp : ConfigWorkerPool}
    {variant : List (String × Val)} {e : ConfigWorkerPool}
    (h : expandVariant env wp variant = Except.ok e) :
    ∃ name pid cfg,
      formatStr wp.pool_id variant = Except.ok name ∧
      evaluate_keyed_by wp.provider_id name
        (updateDict [("environment", env.envVal)] variant) = Except.ok pid ∧
      update_config wp.config name
        (updateDict [("environment", env.envVal)] variant) = Except.ok cfg ∧
      e = { wp with pool_id := name, provider_id := pid, config := cfg, variants := [[]] } := by
  unfold expandVariant at h
  obtain ⟨name, h1, h⟩ := bindE_ok h
  obtain ⟨pid, h2, h⟩ := bindE_ok h
  obtain ⟨cfg, h3, h⟩ := bindE_ok h
  exact ⟨name, pid, cfg, h1, h2, h3, (pureE_ok h).symm⟩

theorem update_config_keys_spec (name : String) (attrs : List (String × Val)) :
    ∀ (ks : List String) (d d2 : List (String × Val)),
      keysNodup d → ks.Nodup →
      update_config_keys name attrs ks d = Except.ok d2 →
      (∀ k, k ∉ ks → lookupStr d2 k = lookupStr d k) ∧
      (∀ k ∈ ks,
        (lookupStr d k = none → lookupStr d2 k = none) ∧
        (∀ v, lookupStr d k = some v →
          ∃ r, evaluate_keyed_by v name attrs = Except.ok r ∧
            lookupStr d2 k = if r = Val.vnone then none else some r)) := by
  intro ks
  induction ks with
  | nil =>
    intro d d2 _ _ h
    cases pureE_ok h
    exact ⟨fun k _ => rfl, fun k hk => absurd hk (List.not_mem_nil k)⟩
  | cons key rest ih =>
    intro d d2 hnd hks h
    simp only [List.nodup_cons] at hks
    simp only [update_config_keys] at h
    cases hl : lookupStr d key with
    | none =>
      rw [hl] at h
      obtain ⟨h1, h2⟩ := ih d d2 hnd hks.2 h
      constructor
      · intro k hk
        simp only [List.mem_cons] at hk
        push_neg at hk
        exact h1 k hk.2
      · intro k hk
        simp only [List.mem_cons] at hk
        rcases hk with rfl | hk2
        · refine ⟨fun _ => ?_, fun v hv => ?_⟩
          · rw [h1 k hks.1, hl]
          · rw [hl] at hv
            exact Option.noConfusion hv
        · exact h2 k hk2
    | some v =>
      rw [hl] at h
      obtain ⟨r, hr, h⟩ := bindE_ok h
      by_cases hrn : r = Val.vnone
      · rw [if_pos hrn] at h
        obtain ⟨h1, h2⟩ := ih (delKey d key) d2 (keysNodup_delKey key hnd) hks.2 h
        constructor
        · intro k hk
          simp only [List.mem_cons] at hk
          push_neg at hk
          rw [h1 k hk.2]
          exact lookupStr_delKey_other d hk.1
        · intro k hk
          simp only [List.mem_cons] at hk
          rcases hk with rfl | hk2
          · refine ⟨fun hnone => ?_, fun v2 hv2 => ?_⟩
            · rw [hnone] at hl
              exact Option.noConfusion hl
            · rw [hl] at hv2
              cases Option.some.inj hv2
              refine ⟨r, hr, ?_⟩
              rw [if_pos hrn, h1 k hks.1]
              exact lookupStr_delKey_self k hnd
          · have hkne : k ≠ key := fun hh => hks.1 (hh ▸ hk2)
            have hdel := @lookupStr_delKey_other k key d hkne
            obtain ⟨ha, hb⟩ := h2 k hk2
            refine ⟨fun hn => ha ?_, fun v2 hv2 => hb v2 ?_⟩
            · rw [hdel]; exact hn
            · rw [hdel]; exact hv2
      · rw [if_neg hrn] at h
        obtain ⟨h1, h2⟩ := ih (setKey d key r) d2 (keysNodup_setKey key r hnd) hks.2 h
        constructor
        · intro k hk
          simp only [List.mem_cons] at hk
          push_neg at hk
          rw [h1 k hk.2]
          exact lookupStr_setKey_other d r hk.1
        · intro k hk
          simp only [List.mem_cons] at hk
          rcases hk with rfl | hk2
          · refine ⟨fun hnone => ?_, fun v2 hv2 => ?_⟩
            · rw [hnone] at hl
              exact Option.noConfusion hl
            · rw [hl] at hv2
              cases Option.some.inj hv2
              refine ⟨r, hr, ?_⟩
              rw [if_neg hrn, h1 k hks.1]
              exact lookupStr_setKey_self d k r
          · have hkne : k ≠ key := fun hh => hks.1 (hh ▸ hk2)
            have hset := @lookupStr_setKey_other k key d r hkne
            obtain ⟨ha, hb⟩ := h2 k hk2
            refine ⟨fun hn => ha ?_, fun v2 hv2 => hb v2 ?_⟩
            · rw [hset]; exact hn
            · rw [hset]; exact hv2

/-! Concrete fixtures used by example parts of the claims. -/

/-- Claim C4 (confirmed): the variant expander yields exactly one expanded
definition per (definition, variant) pair; the pool id is the pool-id template
formatted with the variant attributes; each definition is resolved against the
attribute context of the variant attributes plus the ambient environment
value; each expanded definition carries the single empty-variant placeholder;
and the pool-{letter} example with variants a and b yields exactly the ids
pool-a and pool-b. -/
theorem c4_variant_expansion :
    (∀ (wps : List ConfigWorkerPool) (env : Environment) (l : List ConfigWorkerPool),
      generate_pool_variants wps env = Except.ok l →
      List.Forall₂ (fun wv e => expandVariant env wv.1 wv.2 = Except.ok e)
        (poolItems wps) l ∧ l.length = (poolItems wps).length) ∧
    (∀ (env : Environment) (wp : ConfigWorkerPool) (variant : List (String × Val))
        (e : ConfigWorkerPool), expandVariant env wp variant = Except.ok e →
      formatStr wp.pool_id variant = Except.ok e.pool_id ∧
      e.variants = [[]] ∧
      evaluate_keyed_by wp.provider_id e.pool_id
        (updateDict [("environment", env.envVal)] variant) = Except.ok e.provider_id ∧
      update_config wp.config e.pool_id
        (updateDict [("environment", env.envVal)] variant) = Except.ok e.config) ∧
    Except.map (fun l => l.map (fun e => e.pool_id))
      (generate_pool_variants [wpLetters] envEx) = Except.ok ["pool-a", "pool-b"] := by
  refine ⟨?_, ?_, ?_⟩
  · intro wps env l h
    have hf := mapExcept_ok h
    exact ⟨hf, (List.Forall₂.length_eq hf).symm⟩
  · intro env wp variant e h
    obtain ⟨name, pid, cfg, h1, h2, h3, he⟩ := expandVariant_ok h
    subst he
    exact ⟨h1, rfl, h2, h3⟩
  · rfl

/-- Witness for C4 at concrete inputs: the first general part applied to the
letters example. -/
theorem c4_variant_expansion_witness :
    List.Forall₂ (fun wv e => expandVariant envEx wv.1 wv.2 = Except.ok e)
      (poolItems [wpLetters]) [expandedLetterA, expandedLetterB] ∧
    [expandedLetterA, expandedLetterB].length = (poolItems [wpLetters]).length :=
  c4_variant_expansion.1 [wpLetters] envEx [expandedLetterA, expandedLetterB] rfl

/-- Claim C7 (confirmed): for every variant of every pool definition, the
expander resolves exactly the configuration fields image, maxCapacity,
minCapacity and security that are present through the keyed-by resolver
against the variant attribute context, replacing the field when resolution
yields a value and deleting it when resolution yields none, and leaves every
other configuration field unchanged. -/
theorem c7_update_config_resolution :
    ∀ (env : Environment) (wp : ConfigWorkerPool) (variant : List (String × Val))
      (e : ConfigWorkerPool) (d : List (String × Val)),
      wp.config = Val.vdict d → keysNodup d →
      expandVariant env wp variant = Except.ok e →
      ∃ d2, e.config = Val.vdict d2 ∧
        (∀ k, k ∉ ["image", "maxCapacity", "minCapacity", "security"] →
          lookupStr d2 k = lookupStr d k) ∧
        (∀ k ∈ ["image", "maxCapacity", "minCapacity", "security"],
          (lookupStr d k = none → lookupStr d2 k = none) ∧
          (∀ v, lookupStr d k = some v →
            ∃ r, evaluate_keyed_by v e.pool_id
                (updateDict [("environment", env.envVal)] variant) = Except.ok r ∧
              lookupStr d2 k = if r = Val.vnone then none else some r)) := by
  intro env wp variant e d hcfg hnd h
  obtain ⟨name, pid, cfg, h1, h2, h3, he⟩ := expandVariant_ok h
  subst he
  rw [hcfg] at h3
  unfold update_config at h3
  obtain ⟨d0, hd0, h3⟩ := bindE_ok h3
  have hdd : d = d0 := by
    have : (Except.ok d : Except GenError (List (String × Val))) = Except.ok d0 := hd0
    exact Except.ok.inj this
  subst hdd
  obtain ⟨d2, hd2, h3⟩ := bindE_ok h3
  have hcfg2 : cfg = Val.vdict d2 := (pureE_ok h3).symm
  refine ⟨d2, by simpa using hcfg2, ?_, ?_⟩
  · exact (update_config_keys_spec name
      (updateDict [("environment", env.envVal)] variant)
      ["image", "maxCapacity", "minCapacity", "security"] d d2 hnd (by decide) hd2).1
  · exact (update_config_keys_spec name
      (updateDict [("environment", env.envVal)] variant)
      ["image", "maxCapacity", "minCapacity", "security"] d d2 hnd (by decide) hd2).2

/-- Witness for C7: the letters example, variant a; the keyed maxCapacity field
resolves to 1 in the expanded configuration. -/
theorem c7_update_config_resolution_witness :
    expandVariant envEx wpLetters [("letter", Val.vstr "a")] =
      Except.ok expandedLetterA ∧
    lookupStr [("maxCapacity", Val.vint 1)] "maxCapacity" =
      (if (Val.vint 1 : Val) = Val.vnone then none else some (Val.vint 1)) := by
  constructor
  · rfl
  · obtain ⟨d2, hd2, hother, hkeys⟩ := c7_update_config_resolution envEx wpLetters
      [("letter", Val.vstr "a")] expandedLetterA _ rfl
      (by unfold keysNodup; decide) rfl
    have hd2e : d2 = [("maxCapacity", Val.vint 1)] := by
      have hcc : Val.vdict [("maxCapacity", Val.vint 1)] = Val.vdict d2 := hd2
      exact (Val.vdict.inj hcc).symm
    obtain ⟨r, hr, hlook⟩ := (hkeys "maxCapacity" (by decide)).2
      (Val.vdict [("by-letter", Val.vdict [("a", Val.vint 1), ("default", Val.vint 2)])]) rfl
    have hrv : r = Val.vint 1 := Except.ok.inj (hr.symm.trans (by rfl))
    subst hrv
    subst hd2e
    exact hlook

/-- Claim C9 counterexample: a pool definition whose variants list is empty
produces zero expanded definitions, not the single default the claim
promises. -/
theorem c9_counterexample_empty_variants :
    generate_pool_variants [wpNoVariants] envEx = Except.ok [] ∧
    Except.map List.length (generate_pool_variants [wpNoVariants] envEx) =
      Except.ok 0 := ⟨rfl, rfl⟩

/-- Claim C9 (amended): an empty variants list yields no expanded definitions;
the single default expansion arises from a variants list holding one empty
attribute-set. -/
theorem c9_amended_empty_variants :
    (∀ (env : Environment) (wp : ConfigWorkerPool), wp.variants = [] →
      generate_pool_variants [wp] env = Except.ok []) ∧
    (∀ (env : Environment) (wp : ConfigWorkerPool), wp.variants = [[]] →
      generate_pool_variants [wp] env =
        Except.map (fun e => [e]) (expandVariant env wp [])) := by
  constructor
  · intro env wp h
    unfold generate_pool_variants
    simp only [poolItems, h, List.map_nil, List.nil_append, mapExcept]
    rfl
  · intro env wp h
    unfold generate_pool_variants
    simp only [poolItems, h, List.map_cons, List.map_nil, List.append_nil]
    cases hx : expandVariant env wp [] with
    | ok e =>
      simp [mapExcept, hx, Except.map, Bind.bind, Except.bind, pure, Except.pure]
    | error er =>
      simp [mapExcept, hx, Except.map, Bind.bind, Except.bind]

/-- Witness for C9 at concrete inputs: both parts of the amended claim applied
to concrete pools. -/
theorem c9_amended_empty_variants_witness :
    generate_pool_variants [wpNoVariants] envEx = Except.ok [] ∧
    generate_pool_variants [wpPass] envEx =
      Except.map (fun e => [e]) (expandVariant envEx wpPass []) :=
  ⟨c9_amended_empty_variants.1 envEx wpNoVariants rfl,
   c9_amended_empty_variants.2 envEx wpPass rfl⟩

/-- Claim C1 counterexample: the first pool fails inside its provider generator
(missing regions key) and the whole run aborts with that error; the second,
unrelated pool would assemble fine on its own, yet no resource record at all is
produced, contradicting the claimed per-pool skip. -/
theorem c1_counterexample :
    update_resources envEx [wpBroken, wpPass] [] (Val.vdict []) =
      ([], some (GenError.keyError "regions")) ∧
    isOkE (assemble envEx [] (Val.vdict []) (wpPass, [])) = true := ⟨rfl, rfl⟩

/-- Claim C1 (amended): no error is caught at the pool assembler boundary:
when the processing of one (definition, variant) item raises, update_resources
stops with that error; records of items before the failure are kept, and no
record is produced for the failing item or for any later pool. -/
theorem c1_amended_error_propagates :
    ∀ (env : Environment) (imgs : List (String × WorkerImage)) (dflts : Val)
      (wps : List ConfigWorkerPool)
      (pre : List (ConfigWorkerPool × List (String × Val)))
      (bad : ConfigWorkerPool × List (String × Val))
      (post : List (ConfigWorkerPool × List (String × Val))) (e : GenError),
      poolItems wps = pre ++ bad :: post →
      (∀ x ∈ pre, isOkE (assemble env imgs dflts x) = true) →
      assemble env imgs dflts bad = Except.error e →
      update_resources env wps imgs dflts =
        (pre.filterMap fun x => okVal (assemble env imgs dflts x), some e) := by
  intro env imgs dflts wps pre bad post e hsplit hpre hbad
  unfold update_resources
  rw [hsplit]
  exact runSteps_prefix_error _ pre bad post e hpre hbad

/-- Witness for C1 (amended) at concrete inputs: the broken pool is the first
item, the pass-through pool the one after it; the run yields no records and the
regions KeyError. -/
theorem c1_amended_error_propagates_witness :
    update_resources envEx [wpBroken, wpPass] [] (Val.vdict []) =
      (([] : List (ConfigWorkerPool × List (String × Val))).filterMap
        (fun x => okVal (assemble envEx [] (Val.vdict []) x)),
       some (GenError.keyError "regions")) :=
  c1_amended_error_propagates envEx [] (Val.vdict []) [wpBroken, wpPass] []
    (wpBroken, []) [(wpPass, [])] (GenError.keyError "regions") rfl
    (fun x hx => absurd hx (List.not_mem_nil x)) rfl

theorem okE_bind {α β : Type} (a : α) (f : α → Except GenError β) :
    (Except.ok a >>= f) = f a := rfl

theorem errE_bind {α β : Type} (e : GenError) (f : α → Except GenError β) :
    ((Except.error e : Except GenError α) >>= f) = Except.error e := rfl

theorem splitCharOnce_none {l : List Char} (h : ∀ c ∈ l, ¬ c = '.') :
    splitCharOnce l = none := by
  induction l with
  | nil => rfl
  | cons c rest ih =>
    simp only [splitCharOnce, if_neg (h c (List.mem_cons_self c rest))]
    rw [ih (fun c2 hc2 => h c2 (List.mem_cons_of_mem c hc2))]

/-- Claim C10 (confirmed): the aws invalid-instance check is total only when
every instanceType string contains a dot; splitting a dot-free string into
family and size raises a ValueError, so aws generation raises instead of
skipping or accepting that instance type. -/
theorem c10_instance_type_split :
    (∀ s : String, (∀ c ∈ s.toList, ¬ c = '.') →
      splitDot1 s = Except.error (GenError.valueError "not enough values to unpack") ∧
      ∀ invalid_instances zone : Val,
        is_invalid_aws_instance_type invalid_instances zone (Val.vstr s) =
          Except.error (GenError.valueError "not enough values to unpack")) ∧
    get_aws_provider_config envEx (Val.vstr "aws-provider") "pool10" cfgNoDot imgsEx
      (Val.vdict []) = Except.error (GenError.valueError "not enough values to unpack") := by
  constructor
  · intro s hs
    have hsplit : splitDot1 s =
        Except.error (GenError.valueError "not enough values to unpack") := by
      unfold splitDot1
      rw [splitCharOnce_none hs]
    refine ⟨hsplit, ?_⟩
    intro inv zone
    unfold is_invalid_aws_instance_type
    simp only [asStr, okE_bind]
    rw [hsplit]
    rfl
  · rfl

/-- Witness for C10 at a concrete dot-free instance type string. -/
theorem c10_instance_type_split_witness :
    splitDot1 "m5large" =
      Except.error (GenError.valueError "not enough values to unpack") ∧
    is_invalid_aws_instance_type (Val.vlist []) (Val.vstr "us-east-1a")
      (Val.vstr "m5large") =
      Except.error (GenError.valueError "not enough values to unpack") :=
  ⟨(c10_instance_type_split.1 "m5large" (by decide)).1,
   (c10_instance_type_split.1 "m5large" (by decide)).2 (Val.vlist [])
     (Val.vstr "us-east-1a")⟩

theorem entryMatches_iff {zone : Val} {family : String} {d : List (String × Val)}
    {zs fs : List Val} (hz : lookupStr d "zones" = some (Val.vlist zs))
    (hf : lookupStr d "families" = some (Val.vlist fs)) :
    entryMatches zone family (Val.vdict d) ↔ zone ∈ zs ∧ Val.vstr family ∈ fs := by
  constructor
  · rintro ⟨d2, zs2, fs2, hd, hz2, hf2, hmz, hmf⟩
    cases Val.vdict.inj hd
    rw [hz] at hz2
    rw [hf] at hf2
    cases Val.vlist.inj (Option.some.inj hz2)
    cases Val.vlist.inj (Option.some.inj hf2)
    exact ⟨hmz, hmf⟩
  · rintro ⟨hmz, hmf⟩
    exact ⟨d, zs, fs, rfl, hz, hf, hmz, hmf⟩

theorem anyInvalidEntry_spec :
    ∀ (entries : List Val), (∀ en ∈ entries, wfInvalidEntry en) →
    ∀ (zone : Val) (family : String),
      ∃ b, anyInvalidEntry zone family entries = Except.ok b ∧
        (b = true ↔ ∃ en ∈ entries, entryMatches zone family en) := by
  intro entries
  induction entries with
  | nil =>
    intro _ zone family
    exact ⟨false, rfl, by simp⟩
  | cons en rest ih =>
    intro hwf zone family
    obtain ⟨d, zs, fs, hen, hz, hf⟩ := hwf en (List.mem_cons_self en rest)
    subst hen
    obtain ⟨b, hb, hiff⟩ := ih (fun x hx => hwf x (List.mem_cons_of_mem _ hx)) zone family
    by_cases hmz : zone ∈ zs
    · by_cases hmf : Val.vstr family ∈ fs
      · refine ⟨true, ?_, ?_⟩
        · simp only [anyInvalidEntry, indexVal, indexDict, hz, okE_bind, valMem,
            decide_eq_true hmz, hf, decide_eq_true hmf]
          rfl
        · simp only [true_iff]
          exact ⟨Val.vdict d, List.mem_cons_self _ _,
            (entryMatches_iff hz hf).mpr ⟨hmz, hmf⟩⟩
      · refine ⟨b, ?_, ?_⟩
        · simp only [anyInvalidEntry, indexVal, indexDict, hz, okE_bind, valMem,
            decide_eq_true hmz, hf]
          have : decide (Val.vstr family ∈ fs) = false := decide_eq_false hmf
          rw [this]
          simpa only [okE_bind, if_pos, if_neg, Bool.false_eq_true, ite_false] using hb
        · rw [hiff]
          constructor
          · intro ⟨en2, hen2, hm2⟩
            exact ⟨en2, List.mem_cons_of_mem _ hen2, hm2⟩
          · rintro ⟨en2, hen2, hm2⟩
            rcases List.mem_cons.mp hen2 with rfl | hin
            · exact absurd ((entryMatches_iff hz hf).mp hm2).2 hmf
            · exact ⟨en2, hin, hm2⟩
    · refine ⟨b, ?_, ?_⟩
      · simp only [anyInvalidEntry, indexVal, indexDict, hz, okE_bind, valMem]
        have : decide (zone ∈ zs) = false := decide_eq_false hmz
        rw [this]
        simpa only [okE_bind, Bool.false_eq_true, ite_false] using hb
      · rw [hiff]
        constructor
        · intro ⟨en2, hen2, hm2⟩
          exact ⟨en2, List.mem_cons_of_mem _ hen2, hm2⟩
        · rintro ⟨en2, hen2, hm2⟩
          rcases List.mem_cons.mp hen2 with rfl | hin
          · exact absurd ((entryMatches_iff hz hf).mp hm2).1 hmz
          · exact ⟨en2, hin, hm2⟩

theorem is_invalid_spec (entries : List Val) (zone : Val) (s fam sz : String)
    (hsplit : splitDot1 s = Except.ok (fam, sz))
    (hwf : ∀ en ∈ entries, wfInvalidEntry en) :
    ∃ b, is_invalid_aws_instance_type (Val.vlist entries) zone (Val.vstr s) =
        Except.ok b ∧ (b = true ↔ ∃ en ∈ entries, entryMatches zone fam en) := by
  obtain ⟨b, hb, hiff⟩ := anyInvalidEntry_spec entries hwf zone fam
  refine ⟨b, ?_, hiff⟩
  unfold is_invalid_aws_instance_type
  simp only [asStr, okE_bind]
  rw [hsplit]
  simp only [okE_bind, asList]
  exact hb

theorem aws_skip_invalid (ctx : AwsCtx) (region az subnet sg : Val)
    (itd : List (String × Val)) (itv inv : Val) (rest : List Val)
    (h1 : lookupStr itd "instanceType" = some itv)
    (h2 : indexVal ctx.aws_config "invalid-instances" = Except.ok inv)
    (h3 : is_invalid_aws_instance_type inv az itv = Except.ok true) :
    aws_for_instance_types ctx region az subnet sg (Val.vdict itd :: rest) =
      aws_for_instance_types ctx region az subnet sg rest := by
  simp only [aws_for_instance_types]
  rw [h2]
  simp only [okE_bind, indexVal, indexDict]
  rw [h1]
  simp only [okE_bind]
  rw [h3]
  simp only [okE_bind]
  simp

/-- Claim C6 (confirmed): an instance type is skipped, with no error, exactly
when some invalid-instances entry contains the availability zone in its zones
and the family before the first dot of the instance type in its families; in
the concrete two-type example with one matching entry, exactly one launch
configuration survives, for the non-matching type. -/
theorem c6_invalid_instance_filtering :
    (∀ (entries : List Val) (zone : Val) (s fam sz : String),
      splitDot1 s = Except.ok (fam, sz) →
      (∀ en ∈ entries, wfInvalidEntry en) →
      ∃ b, is_invalid_aws_instance_type (Val.vlist entries) zone (Val.vstr s) =
          Except.ok b ∧ (b = true ↔ ∃ en ∈ entries, entryMatches zone fam en)) ∧
    (∀ (ctx : AwsCtx) (region az subnet sg : Val) (itd : List (String × Val))
        (itv inv : Val) (rest : List Val),
      lookupStr itd "instanceType" = some itv →
      indexVal ctx.aws_config "invalid-instances" = Except.ok inv →
      is_invalid_aws_instance_type inv az itv = Except.ok true →
      aws_for_instance_types ctx region az subnet sg (Val.vdict itd :: rest) =
        aws_for_instance_types ctx region az subnet sg rest) ∧
    (launchConfigsOf awsC6).length = 1 ∧
    (launchConfigsOf awsC6).map (fun lc =>
      match lcField lc "launchConfig" with
      | some (Val.vdict d) => lookupStr d "InstanceType"
      | _ => none) = [some (Val.vstr "c5.large")] := by
  refine ⟨?_, ?_, rfl, rfl⟩
  · exact is_invalid_spec
  · intro ctx region az subnet sg itd itv inv rest h1 h2 h3
    exact aws_skip_invalid ctx region az subnet sg itd itv inv rest h1 h2 h3

/-- Witness for C6: the concrete one-entry table marks m5.large invalid in
us-east-1a. -/
theorem c6_invalid_instance_filtering_witness :
    is_invalid_aws_instance_type
      (Val.vlist [Val.vdict [
        ("zones", Val.vlist [Val.vstr "us-east-1a"]),
        ("families", Val.vlist [Val.vstr "m5"])]])
      (Val.vstr "us-east-1a") (Val.vstr "m5.large") = Except.ok true := by
  obtain ⟨b, hb, hiff⟩ := c6_invalid_instance_filtering.1
    [Val.vdict [("zones", Val.vlist [Val.vstr "us-east-1a"]),
                ("families", Val.vlist [Val.vstr "m5"])]]
    (Val.vstr "us-east-1a") "m5.large" "m5" "large" rfl
    (by
      intro en hen
      rcases List.mem_singleton.mp hen with rfl
      exact ⟨[("zones", Val.vlist [Val.vstr "us-east-1a"]),
              ("families", Val.vlist [Val.vstr "m5"])],
             [Val.vstr "us-east-1a"], [Val.vstr "m5"], rfl, rfl, rfl⟩)
  have hbt : b = true := hiff.mpr
    ⟨Val.vdict [("zones", Val.vlist [Val.vstr "us-east-1a"]),
                ("families", Val.vlist [Val.vstr "m5"])],
     List.mem_singleton.mpr rfl,
     ⟨[("zones", Val.vlist [Val.vstr "us-east-1a"]),
       ("families", Val.vlist [Val.vstr "m5"])],
      [Val.vstr "us-east-1a"], [Val.vstr "m5"], rfl, rfl, rfl, by decide, by decide⟩⟩
  subst hbt
  exact hb

theorem validate_each_ok {pool_id : String} {implementation : Val} :
    ∀ {its : List Val} {u : Unit},
      validate_each pool_id implementation its = Except.ok u →
      ∀ it ∈ its, ∀ d, it = Val.vdict d →
        lookupStr d "capacity" = none ∧
        ((lookupStr d "capacityPerInstance").getD (Val.vint 1) = Val.vint 1 ∨
          implementation = Val.vstr "docker-worker") := by
  intro its
  induction its with
  | nil =>
    intro u _ it hit
    exact absurd hit (List.not_mem_nil it)
  | cons it0 rest ih =>
    intro u h it hit d hd
    simp only [validate_each] at h
    obtain ⟨c1, hc1, h⟩ := bindE_ok h
    by_cases hb1 : c1 = true
    · rw [if_pos hb1] at h
      exact Except.noConfusion h
    · rw [if_neg hb1] at h
      obtain ⟨wc, hwc, h⟩ := bindE_ok h
      obtain ⟨c2, hc2, h⟩ := bindE_ok h
      by_cases hb2 : c2 = true
      · rw [if_pos hb2] at h
        exact Except.noConfusion h
      · rw [if_neg hb2] at h
        obtain ⟨cap, hcap, h⟩ := bindE_ok h
        by_cases hb3 : cap ≠ Val.vint 1 ∧ implementation ≠ Val.vstr "docker-worker"
        · rw [if_pos hb3] at h
          exact Except.noConfusion h
        · rw [if_neg hb3] at h
          rcases List.mem_cons.mp hit with rfl | hin
          · subst hd
            constructor
            · have hc : Except.ok (lookupStr d "capacity").isSome = Except.ok c1 := hc1
              have hcf : (lookupStr d "capacity").isSome = false := by
                rw [Except.ok.inj hc]
                exact Bool.eq_false_iff.mpr hb1
              exact Option.not_isSome_iff_eq_none.mp (by simp [hcf])
            · have hcv : (lookupStr d "capacityPerInstance").getD (Val.vint 1) = cap :=
                Except.ok.inj hcap
              by_cases hcap1 : cap = Val.vint 1
              · exact Or.inl (hcv.trans hcap1)
              · refine Or.inr ?_
                by_contra hni
                exact hb3 ⟨hcap1, hni⟩
          · exact ih h it hin d hd

theorem indexDict_ok {d : List (String × Val)} {k : String} {v : Val}
    (h : indexDict d k = Except.ok v) : lookupStr d k = some v := by
  unfold indexDict at h
  cases hl : lookupStr d k with
  | none => rw [hl] at h; exact Except.noConfusion h
  | some w => rw [hl] at h; rw [Except.ok.inj h]

theorem asList_ok {v : Val} {l : List Val} (h : asList v = Except.ok l) :
    v = Val.vlist l := by
  cases v <;> simp [asList] at h
  rw [h]

theorem asDict_ok {v : Val} {d : List (String × Val)}
    (h : asDict v = Except.ok d) : v = Val.vdict d := by
  cases v <;> simp [asDict] at h
  rw [h]

theorem get_aws_ok_inv {env : Environment} {pid : Val} {pool : String}
    {cd : List (String × Val)} {imgs : List (String × WorkerImage)} {dflts : Val}
    {v : Val}
    (h : get_aws_provider_config env pid pool (Val.vdict cd) imgs dflts =
      Except.ok v) :
    ∃ (its lcs : List Val) (rd dl mx : Val) (ctx : AwsCtx),
      lookupStr cd "instance_types" = some (Val.vlist its) ∧
      lookupStr cd "maxCapacity" = some mx ∧
      evaluate_keyed_by dflts "defaults" [("provider", pid)] = Except.ok rd ∧
      dictGetD rd "lifecycle" (Val.vdict []) = Except.ok dl ∧
      ctx.implementation =
        (lookupStr cd "implementation").getD (Val.vstr "docker-worker") ∧
      ctx.instance_types = its ∧
      validate_instance_capacity pool ctx.implementation (Val.vlist its) =
        Except.ok () ∧
      (∃ regions : List Val, aws_for_regions ctx regions = Except.ok lcs) ∧
      v = Val.vdict [
        ("minCapacity", (lookupStr cd "minCapacity").getD (Val.vint 0)),
        ("maxCapacity", mx),
        ("lifecycle", mergeAll [dl, (lookupStr cd "lifecycle").getD (Val.vdict [])]),
        ("launchConfigs", Val.vlist lcs)] := by
  unfold get_aws_provider_config at h
  obtain ⟨cd0, hcd0, h⟩ := bindE_ok h
  have hcd : cd = cd0 := Except.ok.inj hcd0
  subst hcd
  obtain ⟨p1, hp1, h⟩ := bindE_ok h
  obtain ⟨hp1l, hp1d⟩ := popIndex_ok hp1
  obtain ⟨imageName, hImageName, h⟩ := bindE_ok h
  obtain ⟨image, hImage, h⟩ := bindE_ok h
  obtain ⟨itv, hitv, h⟩ := bindE_ok h
  obtain ⟨dflts2, hdflts, h⟩ := bindE_ok h
  obtain ⟨dl, hdl, h⟩ := bindE_ok h
  obtain ⟨dwc, hdwc, h⟩ := bindE_ok h
  obtain ⟨wc0, hwc0, h⟩ := bindE_ok h
  obtain ⟨uval, hval, h⟩ := bindE_ok h
  obtain ⟨its, hits, h⟩ := bindE_ok h
  obtain ⟨regions, hregions, h⟩ := bindE_ok h
  obtain ⟨lcs, hlcs, h⟩ := bindE_ok h
  obtain ⟨mx, hmx, h⟩ := bindE_ok h
  have hv := pureE_ok h
  have hitslist : itv = Val.vlist its := asList_ok hits
  have hkeep1 : ∀ k2 : String, k2 ≠ "regions" →
      lookupStr p1.2 k2 = lookupStr cd k2 := by
    intro k2 hk2
    rw [hp1d]
    exact lookupStr_delKey_other cd hk2
  have himpl : (popD (popD (popD (popD p1.2 "security" (Val.vstr "untrusted")).2
      "spot" (Val.vbool true)).2 "additional-user-data" (Val.vdict [])).2
      "implementation" (Val.vstr "docker-worker")).1 =
      (lookupStr cd "implementation").getD (Val.vstr "docker-worker") := by
    rw [popD_fst]
    rw [popD_snd_lookup _ _ _ (by decide)]
    rw [popD_snd_lookup _ _ _ (by decide)]
    rw [popD_snd_lookup _ _ _ (by decide)]
    exact congrArg (fun o => Option.getD o (Val.vstr "docker-worker"))
      (hkeep1 "implementation" (by decide))
  have hkeep6 : ∀ k2 : String, k2 ≠ "regions" → k2 ≠ "security" → k2 ≠ "spot" →
      k2 ≠ "additional-user-data" → k2 ≠ "implementation" → k2 ≠ "lifecycle" →
      lookupStr (popD (popD (popD (popD (popD p1.2 "security" (Val.vstr "untrusted")).2
        "spot" (Val.vbool true)).2 "additional-user-data" (Val.vdict [])).2
        "implementation" (Val.vstr "docker-worker")).2 "lifecycle" (Val.vdict [])).2 k2 =
      lookupStr cd k2 := by
    intro k2 h1 h2 h3 h4 h5 h6
    rw [popD_snd_lookup _ _ _ h6]
    rw [popD_snd_lookup _ _ _ h5]
    rw [popD_snd_lookup _ _ _ h4]
    rw [popD_snd_lookup _ _ _ h3]
    rw [popD_snd_lookup _ _ _ h2]
    exact hkeep1 k2 h1
  have hclife : (popD (popD (popD (popD (popD p1.2 "security" (Val.vstr "untrusted")).2
      "spot" (Val.vbool true)).2 "additional-user-data" (Val.vdict [])).2
      "implementation" (Val.vstr "docker-worker")).2 "lifecycle" (Val.vdict [])).1 =
      (lookupStr cd "lifecycle").getD (Val.vdict []) := by
    rw [popD_fst]
    congr 1
    rw [popD_snd_lookup _ _ _ (by decide)]
    rw [popD_snd_lookup _ _ _ (by decide)]
    rw [popD_snd_lookup _ _ _ (by decide)]
    rw [popD_snd_lookup _ _ _ (by decide)]
    exact hkeep1 "lifecycle" (by decide)
  refine ⟨its, lcs, dflts2, dl, mx, _, ?_, ?_, hdflts, hdl, himpl, rfl, ?_, ⟨regions, hlcs⟩, ?_⟩
  · rw [← hitslist]
    have := indexDict_ok hitv
    rw [hkeep1 "instance_types" (by decide)] at this
    exact this
  · have := indexDict_ok hmx
    rw [hkeep6 "maxCapacity" (by decide) (by decide) (by decide) (by decide)
      (by decide) (by decide)] at this
    exact this
  · rw [← hitslist]
    exact hval
  · rw [← hv]
    rw [hkeep6 "minCapacity" (by decide) (by decide) (by decide) (by decide)
      (by decide) (by decide)]
    rw [hclife]

theorem get_google_ok_inv {env : Environment} {pid : Val} {pool : String}
    {cd : List (String × Val)} {imgs : List (String × WorkerImage)} {dflts : Val}
    {v : Val}
    (h : get_google_provider_config env pid pool (Val.vdict cd) imgs dflts =
      Except.ok v) :
    ∃ (its lcs : List Val) (rd dl mx : Val) (ctx : GoogleCtx),
      lookupStr cd "instance_types" = some (Val.vlist its) ∧
      lookupStr cd "maxCapacity" = some mx ∧
      evaluate_keyed_by dflts "defaults" [("provider", pid)] = Except.ok rd ∧
      dictGetD rd "lifecycle" (Val.vdict []) = Except.ok dl ∧
      ctx.implementation =
        (lookupStr cd "implementation").getD (Val.vstr "docker-worker") ∧
      ctx.instance_types = its ∧
      validate_instance_capacity pool ctx.implementation (Val.vlist its) =
        Except.ok () ∧
      (∃ regions : List Val, google_for_regions ctx regions = Except.ok lcs) ∧
      v = Val.vdict [
        ("minCapacity", (lookupStr cd "minCapacity").getD (Val.vint 0)),
        ("maxCapacity", mx),
        ("lifecycle", mergeAll [dl, (lookupStr cd "lifecycle").getD (Val.vdict [])]),
        ("launchConfigs", Val.vlist lcs)] := by
  unfold get_google_provider_config at h
  obtain ⟨cd0, hcd0, h⟩ := bindE_ok h
  have hcd : cd = cd0 := Except.ok.inj hcd0
  subst hcd
  obtain ⟨p1, hp1, h⟩ := bindE_ok h
  obtain ⟨hp1l, hp1d⟩ := popIndex_ok hp1
  obtain ⟨imageName, hImageName, h⟩ := bindE_ok h
  obtain ⟨image, hImage, h⟩ := bindE_ok h
  obtain ⟨itv, hitv, h⟩ := bindE_ok h
  obtain ⟨dflts2, hdflts, h⟩ := bindE_ok h
  obtain ⟨dl, hdl, h⟩ := bindE_ok h
  obtain ⟨dwc, hdwc, h⟩ := bindE_ok h
  obtain ⟨wc0, hwc0, h⟩ := bindE_ok h
  obtain ⟨image_name, hImageName2, h⟩ := bindE_ok h
  obtain ⟨uval, hval, h⟩ := bindE_ok h
  obtain ⟨its, hits, h⟩ := bindE_ok h
  obtain ⟨regions, hregions, h⟩ := bindE_ok h
  obtain ⟨lcs, hlcs, h⟩ := bindE_ok h
  obtain ⟨mx, hmx, h⟩ := bindE_ok h
  have hv := pureE_ok h
  have hitslist : itv = Val.vlist its := asList_ok hits
  have hkeep1 : ∀ k2 : String, k2 ≠ "regions" →
      lookupStr p1.2 k2 = lookupStr cd k2 := by
    intro k2 hk2
    rw [hp1d]
    exact lookupStr_delKey_other cd hk2
  have himpl : (popD p1.2 "implementation" (Val.vstr "docker-worker")).1 =
      (lookupStr cd "implementation").getD (Val.vstr "docker-worker") := by
    rw [popD_fst]
    exact congrArg (fun o => Option.getD o (Val.vstr "docker-worker"))
      (hkeep1 "implementation" (by decide))
  have hkeep3 : ∀ k2 : String, k2 ≠ "regions" → k2 ≠ "implementation" →
      k2 ≠ "lifecycle" →
      lookupStr (popD (popD p1.2 "implementation" (Val.vstr "docker-worker")).2
        "lifecycle" (Val.vdict [])).2 k2 = lookupStr cd k2 := by
    intro k2 h1 h2 h3
    rw [popD_snd_lookup _ _ _ h3]
    rw [popD_snd_lookup _ _ _ h2]
    exact hkeep1 k2 h1
  have hclife : (popD (popD p1.2 "implementation" (Val.vstr "docker-worker")).2
      "lifecycle" (Val.vdict [])).1 =
      (lookupStr cd "lifecycle").getD (Val.vdict []) := by
    rw [popD_fst]
    congr 1
    rw [popD_snd_lookup _ _ _ (by decide)]
    exact hkeep1 "lifecycle" (by decide)
  refine ⟨its, lcs, dflts2, dl, mx, _, ?_, ?_, hdflts, hdl, himpl, rfl, ?_,
    ⟨regions, hlcs⟩, ?_⟩
  · rw [← hitslist]
    have := indexDict_ok hitv
    rw [hkeep1 "instance_types" (by decide)] at this
    exact this
  · have := indexDict_ok hmx
    rw [hkeep3 "maxCapacity" (by decide) (by decide) (by decide)] at this
    exact this
  · rw [← hitslist]
    exact hval
  · rw [← hv]
    rw [hkeep3 "minCapacity" (by decide) (by decide) (by decide)]
    rw [hclife]

theorem get_azure_ok_inv {env : Environment} {pid : Val} {pool : String}
    {cd : List (String × Val)} {imgs : List (String × WorkerImage)} {dflts : Val}
    {v : Val}
    (h : get_azure_provider_config env pid pool (Val.vdict cd) imgs dflts =
      Except.ok v) :
    ∃ (lcs : List Val) (rd dl mx : Val),
      lookupStr cd "maxCapacity" = some mx ∧
      evaluate_keyed_by dflts "defaults" [("provider", pid)] = Except.ok rd ∧
      dictGetD rd "lifecycle" (Val.vdict []) = Except.ok dl ∧
      v = Val.vdict [
        ("minCapacity", (lookupStr cd "minCapacity").getD (Val.vint 0)),
        ("maxCapacity", mx),
        ("lifecycle", mergeAll [dl, (lookupStr cd "lifecycle").getD (Val.vdict [])]),
        ("launchConfigs", Val.vlist lcs)] := by
  unfold get_azure_provider_config at h
  obtain ⟨cd0, hcd0, h⟩ := bindE_ok h
  have hcd : cd = cd0 := Except.ok.inj hcd0
  subst hcd
  obtain ⟨p1, hp1, h⟩ := bindE_ok h
  obtain ⟨hp1l, hp1d⟩ := popIndex_ok hp1
  obtain ⟨p2, hp2, h⟩ := bindE_ok h
  obtain ⟨hp2l, hp2d⟩ := popIndex_ok hp2
  obtain ⟨vmSizesV, hvmSizesV, h⟩ := bindE_ok h
  obtain ⟨purpose, hpurpose, h⟩ := bindE_ok h
  obtain ⟨imageName, hImageName, h⟩ := bindE_ok h
  obtain ⟨image, hImage, h⟩ := bindE_ok h
  obtain ⟨dflts2, hdflts, h⟩ := bindE_ok h
  obtain ⟨dl, hdl, h⟩ := bindE_ok h
  obtain ⟨dwc, hdwc, h⟩ := bindE_ok h
  obtain ⟨wc0, hwc0, h⟩ := bindE_ok h
  obtain ⟨vmSizes, hvmSizes, h⟩ := bindE_ok h
  obtain ⟨locations, hlocations, h⟩ := bindE_ok h
  obtain ⟨lcs, hlcs, h⟩ := bindE_ok h
  obtain ⟨mx, hmx, h⟩ := bindE_ok h
  have hv := pureE_ok h
  have hkeep2 : ∀ k2 : String, k2 ≠ "locations" → k2 ≠ "image_resource_group" →
      lookupStr p2.2 k2 = lookupStr cd k2 := by
    intro k2 h1 h2
    rw [hp2d, lookupStr_delKey_other _ h2, hp1d]
    exact lookupStr_delKey_other cd h1
  have hkeep6 : ∀ k2 : String, k2 ≠ "locations" → k2 ≠ "image_resource_group" →
      k2 ≠ "additional-user-data" → k2 ≠ "implementation" → k2 ≠ "spot" →
      k2 ≠ "lifecycle" →
      lookupStr (popD (popD (popD (popD p2.2 "additional-user-data"
        (Val.vdict [])).2 "implementation"
        (Val.vstr "generic-worker/worker-runner-windows")).2 "spot"
        (Val.vbool true)).2 "lifecycle" (Val.vdict [])).2 k2 =
      lookupStr cd k2 := by
    intro k2 h1 h2 h3 h4 h5 h6
    rw [popD_snd_lookup _ _ _ h6]
    rw [popD_snd_lookup _ _ _ h5]
    rw [popD_snd_lookup _ _ _ h4]
    rw [popD_snd_lookup _ _ _ h3]
    exact hkeep2 k2 h1 h2
  have hclife : (popD (popD (popD (popD p2.2 "additional-user-data"
      (Val.vdict [])).2 "implementation"
      (Val.vstr "generic-worker/worker-runner-windows")).2 "spot"
      (Val.vbool true)).2 "lifecycle" (Val.vdict [])).1 =
      (lookupStr cd "lifecycle").getD (Val.vdict []) := by
    rw [popD_fst]
    congr 1
    rw [popD_snd_lookup _ _ _ (by decide)]
    rw [popD_snd_lookup _ _ _ (by decide)]
    rw [popD_snd_lookup _ _ _ (by decide)]
    exact hkeep2 "lifecycle" (by decide) (by decide)
  refine ⟨lcs, dflts2, dl, mx, ?_, hdflts, hdl, ?_⟩
  · have := indexDict_ok hmx
    rw [hkeep6 "maxCapacity" (by decide) (by decide) (by decide) (by decide)
      (by decide) (by decide)] at this
    exact this
  · rw [← hv]
    rw [hkeep6 "minCapacity" (by decide) (by decide) (by decide) (by decide)
      (by decide) (by decide)]
    rw [hclife]

/-- Claim C8 (confirmed): every provider generator returns a mapping of exactly
the shape minCapacity, maxCapacity, lifecycle, launchConfigs; minCapacity
defaults to 0 when absent from the pool configuration; maxCapacity is taken
from the pool configuration and its absence is fatal for that pool; lifecycle
is the merge of the resolved per-provider default lifecycle with the
pool-local override; launchConfigs is always a list. -/
theorem c8_provider_result_shape :
    (∀ (env : Environment) (pid : Val) (pool : String) (cd : List (String × Val))
        (imgs : List (String × WorkerImage)) (dflts v : Val),
      get_aws_provider_config env pid pool (Val.vdict cd) imgs dflts =
        Except.ok v →
      ∃ (lcs : List Val) (rd dl mx : Val),
        lookupStr cd "maxCapacity" = some mx ∧
        evaluate_keyed_by dflts "defaults" [("provider", pid)] = Except.ok rd ∧
        dictGetD rd "lifecycle" (Val.vdict []) = Except.ok dl ∧
        v = Val.vdict [
          ("minCapacity", (lookupStr cd "minCapacity").getD (Val.vint 0)),
          ("maxCapacity", mx),
          ("lifecycle", mergeAll [dl, (lookupStr cd "lifecycle").getD (Val.vdict [])]),
          ("launchConfigs", Val.vlist lcs)]) ∧
    (∀ (env : Environment) (pid : Val) (pool : String) (cd : List (String × Val))
        (imgs : List (String × WorkerImage)) (dflts v : Val),
      get_google_provider_config env pid pool (Val.vdict cd) imgs dflts =
        Except.ok v →
      ∃ (lcs : List Val) (rd dl mx : Val),
        lookupStr cd "maxCapacity" = some mx ∧
        evaluate_keyed_by dflts "defaults" [("provider", pid)] = Except.ok rd ∧
        dictGetD rd "lifecycle" (Val.vdict []) = Except.ok dl ∧
        v = Val.vdict [
          ("minCapacity", (lookupStr cd "minCapacity").getD (Val.vint 0)),
          ("maxCapacity", mx),
          ("lifecycle", mergeAll [dl, (lookupStr cd "lifecycle").getD (Val.vdict [])]),
          ("launchConfigs", Val.vlist lcs)]) ∧
    (∀ (env : Environment) (pid : Val) (pool : String) (cd : List (String × Val))
        (imgs : List (String × WorkerImage)) (dflts v : Val),
      get_azure_provider_config env pid pool (Val.vdict cd) imgs dflts =
        Except.ok v →
      ∃ (lcs : List Val) (rd dl mx : Val),
        lookupStr cd "maxCapacity" = some mx ∧
        evaluate_keyed_by dflts "defaults" [("provider", pid)] = Except.ok rd ∧
        dictGetD rd "lifecycle" (Val.vdict []) = Except.ok dl ∧
        v = Val.vdict [
          ("minCapacity", (lookupStr cd "minCapacity").getD (Val.vint 0)),
          ("maxCapacity", mx),
          ("lifecycle", mergeAll [dl, (lookupStr cd "lifecycle").getD (Val.vdict [])]),
          ("launchConfigs", Val.vlist lcs)]) ∧
    (∀ (env : Environment) (pid : Val) (pool : String) (cd : List (String × Val))
        (imgs : List (String × WorkerImage)) (dflts : Val),
      lookupStr cd "maxCapacity" = none →
      isOkE (get_aws_provider_config env pid pool (Val.vdict cd) imgs dflts) = false ∧
      isOkE (get_google_provider_config env pid pool (Val.vdict cd) imgs dflts) = false ∧
      isOkE (get_azure_provider_config env pid pool (Val.vdict cd) imgs dflts) = false) := by
  refine ⟨?_, ?_, ?_, ?_⟩
  · intro env pid pool cd imgs dflts v h
    obtain ⟨its, lcs, rd, dl, mx, ctx, _, hmx, hrd, hdl, _, _, _, _, hv⟩ :=
      get_aws_ok_inv h
    exact ⟨lcs, rd, dl, mx, hmx, hrd, hdl, hv⟩
  · intro env pid pool cd imgs dflts v h
    obtain ⟨its, lcs, rd, dl, mx, ctx, _, hmx, hrd, hdl, _, _, _, _, hv⟩ :=
      get_google_ok_inv h
    exact ⟨lcs, rd, dl, mx, hmx, hrd, hdl, hv⟩
  · intro env pid pool cd imgs dflts v h
    obtain ⟨lcs, rd, dl, mx, hmx, hrd, hdl, hv⟩ := get_azure_ok_inv h
    exact ⟨lcs, rd, dl, mx, hmx, hrd, hdl, hv⟩
  · intro env pid pool cd imgs dflts hnone
    refine ⟨?_, ?_, ?_⟩
    · cases hg : get_aws_provider_config env pid pool (Val.vdict cd) imgs dflts with
      | error e => rfl
      | ok v =>
        obtain ⟨_, _, _, _, mx, _, _, hmx, _⟩ := get_aws_ok_inv hg
        rw [hnone] at hmx
        exact Option.noConfusion hmx
    · cases hg : get_google_provider_config env pid pool (Val.vdict cd) imgs dflts with
      | error e => rfl
      | ok v =>
        obtain ⟨_, _, _, _, mx, _, _, hmx, _⟩ := get_google_ok_inv hg
        rw [hnone] at hmx
        exact Option.noConfusion hmx
    · cases hg : get_azure_provider_config env pid pool (Val.vdict cd) imgs dflts with
      | error e => rfl
      | ok v =>
        obtain ⟨_, _, _, mx, hmx, _⟩ := get_azure_ok_inv hg
        rw [hnone] at hmx
        exact Option.noConfusion hmx

/-- Witness for C8: the shape clause applied to the concrete aws, google and
azure examples, and the fatality clause applied to an empty configuration. -/
theorem c8_provider_result_shape_witness :
    lookupStr cdC6 "maxCapacity" = some (Val.vint 10) ∧
    lookupStr cdG "maxCapacity" = some (Val.vint 7) ∧
    lookupStr cdAzPlain "maxCapacity" = some (Val.vint 5) ∧
    isOkE (get_aws_provider_config envEx (Val.vstr "aws-provider") "pool8"
      (Val.vdict []) imgsEx (Val.vdict [])) = false ∧
    isOkE (get_google_provider_config envEx (Val.vstr "google-provider") "pool8"
      (Val.vdict []) imgsEx (Val.vdict [])) = false ∧
    isOkE (get_azure_provider_config envEx (Val.vstr "azure-provider") "pool8"
      (Val.vdict []) imgsEx (Val.vdict [])) = false := by
  obtain ⟨lcs1, rd1, dl1, mx1, hmx1, _⟩ := c8_provider_result_shape.1 envC6
    (Val.vstr "aws-provider") "pool6" cdC6 imgsEx (Val.vdict []) _ rfl
  obtain ⟨lcs2, rd2, dl2, mx2, hmx2, _⟩ := c8_provider_result_shape.2.1 envEx
    (Val.vstr "google-provider") "pool-g" cdG imgsEx (Val.vdict []) _ rfl
  obtain ⟨lcs3, rd3, dl3, mx3, hmx3, _⟩ := c8_provider_result_shape.2.2.1 envEx
    (Val.vstr "azure-provider") "pool-az" cdAzPlain imgsEx (Val.vdict []) _ rfl
  obtain ⟨hf1, hf2, hf3⟩ := c8_provider_result_shape.2.2.2 envEx
    (Val.vstr "x") "pool8" [] imgsEx (Val.vdict []) rfl
  refine ⟨?_, ?_, ?_, ?_, ?_, ?_⟩
  · exact hmx1.trans (congrArg some (Option.some.inj (hmx1.symm.trans (by rfl))))
  · exact hmx2.trans (congrArg some (Option.some.inj (hmx2.symm.trans (by rfl))))
  · exact hmx3.trans (congrArg some (Option.some.inj (hmx3.symm.trans (by rfl))))
  · exact c8_provider_result_shape.2.2.2 envEx (Val.vstr "aws-provider") "pool8"
      [] imgsEx (Val.vdict []) rfl |>.1
  · exact c8_provider_result_shape.2.2.2 envEx (Val.vstr "google-provider") "pool8"
      [] imgsEx (Val.vdict []) rfl |>.2.1
  · exact c8_provider_result_shape.2.2.2 envEx (Val.vstr "azure-provider") "pool8"
      [] imgsEx (Val.vdict []) rfl |>.2.2

theorem validate_vc_ok {pool : String} {impl : Val} {its : List Val} {u : Unit}
    (h : validate_instance_capacity pool impl (Val.vlist its) = Except.ok u) :
    validate_each pool impl its = Except.ok u := by
  unfold validate_instance_capacity at h
  obtain ⟨l, hl, h⟩ := bindE_ok h
  have hle : its = l := Except.ok.inj hl
  subst hle
  exact h

/-- Claim C2 counterexample: the azure generator performs no capacity
validation: a size entry carrying a raw capacity key and a
capacityPerInstance of 2 under the non-docker default implementation
generates successfully instead of raising as the claim requires of every
provider. -/
theorem c2_counterexample_azure_unvalidated : isOkE azureCap = true := rfl

/-- Claim C2 (amended): for the aws and google generators an instance-type
entry with a top-level capacity key makes generation fail before any launch
configuration is produced, and a capacityPerInstance other than 1 makes
generation fail for every implementation except docker-worker; for
docker-worker generation succeeds and produces that value; the azure
generator performs no such validation. -/
theorem c2_amended_capacity_validation :
    (∀ (env : Environment) (pid : Val) (pool : String) (cd : List (String × Val))
        (imgs : List (String × WorkerImage)) (dflts : Val) (its : List Val)
        (d2 : List (String × Val)),
      lookupStr cd "instance_types" = some (Val.vlist its) →
      Val.vdict d2 ∈ its → (lookupStr d2 "capacity").isSome = true →
      isOkE (get_aws_provider_config env pid pool (Val.vdict cd) imgs dflts) = false ∧
      isOkE (get_google_provider_config env pid pool (Val.vdict cd) imgs dflts) = false) ∧
    (∀ (env : Environment) (pid : Val) (pool : String) (cd : List (String × Val))
        (imgs : List (String × WorkerImage)) (dflts : Val) (its : List Val)
        (d2 : List (String × Val)),
      lookupStr cd "instance_types" = some (Val.vlist its) →
      Val.vdict d2 ∈ its →
      (lookupStr d2 "capacityPerInstance").getD (Val.vint 1) ≠ Val.vint 1 →
      (lookupStr cd "implementation").getD (Val.vstr "docker-worker") ≠
        Val.vstr "docker-worker" →
      isOkE (get_aws_provider_config env pid pool (Val.vdict cd) imgs dflts) = false ∧
      isOkE (get_google_provider_config env pid pool (Val.vdict cd) imgs dflts) = false) ∧
    ((launchConfigsOf awsDock2).map (fun lc => lcField lc "capacityPerInstance") =
      [some (Val.vint 2)] ∧
     (launchConfigsOf awsDock2).map (fun lc =>
       match lcField lc "workerConfig" with
       | some (Val.vdict d) => lookupStr d "capacity"
       | _ => none) = [some (Val.vint 2)]) ∧
    isOkE azureCap = true := by
  refine ⟨?_, ?_, ⟨rfl, rfl⟩, rfl⟩
  · intro env pid pool cd imgs dflts its d2 hits hmem hcap
    constructor
    · cases hg : get_aws_provider_config env pid pool (Val.vdict cd) imgs dflts with
      | error e => rfl
      | ok v =>
        exfalso
        obtain ⟨its0, lcs, rd, dl, mx, ctx, hits0, hmx, hrd, hdl, himpl, hctxits,
          hval, hreg, hv⟩ := get_aws_ok_inv hg
        rw [hits] at hits0
        have heq : its = its0 := Val.vlist.inj (Option.some.inj hits0)
        subst heq
        have hnone := (validate_each_ok (validate_vc_ok hval)
          (Val.vdict d2) hmem d2 rfl).1
        rw [hnone] at hcap
        exact Bool.noConfusion hcap
    · cases hg : get_google_provider_config env pid pool (Val.vdict cd) imgs dflts with
      | error e => rfl
      | ok v =>
        exfalso
        obtain ⟨its0, lcs, rd, dl, mx, ctx, hits0, hmx, hrd, hdl, himpl, hctxits,
          hval, hreg, hv⟩ := get_google_ok_inv hg
        rw [hits] at hits0
        have heq : its = its0 := Val.vlist.inj (Option.some.inj hits0)
        subst heq
        have hnone := (validate_each_ok (validate_vc_ok hval)
          (Val.vdict d2) hmem d2 rfl).1
        rw [hnone] at hcap
        exact Bool.noConfusion hcap
  · intro env pid pool cd imgs dflts its d2 hits hmem hcpi himplne
    constructor
    · cases hg : get_aws_provider_config env pid pool (Val.vdict cd) imgs dflts with
      | error e => rfl
      | ok v =>
        exfalso
        obtain ⟨its0, lcs, rd, dl, mx, ctx, hits0, hmx, hrd, hdl, himpl, hctxits,
          hval, hreg, hv⟩ := get_aws_ok_inv hg
        rw [hits] at hits0
        have heq : its = its0 := Val.vlist.inj (Option.some.inj hits0)
        subst heq
        rcases (validate_each_ok (validate_vc_ok hval)
          (Val.vdict d2) hmem d2 rfl).2 with h1 | h2
        · exact hcpi h1
        · rw [himpl] at h2
          exact himplne h2
    · cases hg : get_google_provider_config env pid pool (Val.vdict cd) imgs dflts with
      | error e => rfl
      | ok v =>
        exfalso
        obtain ⟨its0, lcs, rd, dl, mx, ctx, hits0, hmx, hrd, hdl, himpl, hctxits,
          hval, hreg, hv⟩ := get_google_ok_inv hg
        rw [hits] at hits0
        have heq : its = its0 := Val.vlist.inj (Option.some.inj hits0)
        subst heq
        rcases (validate_each_ok (validate_vc_ok hval)
          (Val.vdict d2) hmem d2 rfl).2 with h1 | h2
        · exact hcpi h1
        · rw [himpl] at h2
          exact himplne h2

/-- Witness for C2: a concrete capacity key and a concrete non-docker
capacityPerInstance of 2 make aws and google generation fail. -/
theorem c2_amended_capacity_validation_witness :
    (isOkE (get_aws_provider_config envEx (Val.vstr "aws-provider") "pool-w"
      (Val.vdict [("instance_types", Val.vlist [Val.vdict [("capacity", Val.vint 2)]])])
      imgsEx (Val.vdict [])) = false ∧
     isOkE (get_google_provider_config envEx (Val.vstr "google-provider") "pool-w"
      (Val.vdict [("instance_types", Val.vlist [Val.vdict [("capacity", Val.vint 2)]])])
      imgsEx (Val.vdict [])) = false) ∧
    (isOkE (get_aws_provider_config envEx (Val.vstr "aws-provider") "pool-w"
      (Val.vdict [("instance_types", Val.vlist [Val.vdict [("capacityPerInstance", Val.vint 2)]]),
                  ("implementation", Val.vstr "generic-worker")])
      imgsEx (Val.vdict [])) = false ∧
     isOkE (get_google_provider_config envEx (Val.vstr "google-provider") "pool-w"
      (Val.vdict [("instance_types", Val.vlist [Val.vdict [("capacityPerInstance", Val.vint 2)]]),
                  ("implementation", Val.vstr "generic-worker")])
      imgsEx (Val.vdict [])) = false) :=
  ⟨⟨(c2_amended_capacity_validation.1 envEx (Val.vstr "aws-provider") "pool-w"
      [("instance_types", Val.vlist [Val.vdict [("capacity", Val.vint 2)]])]
      imgsEx (Val.vdict []) [Val.vdict [("capacity", Val.vint 2)]]
      [("capacity", Val.vint 2)] rfl (List.mem_singleton.mpr rfl) rfl).1,
    (c2_amended_capacity_validation.1 envEx (Val.vstr "google-provider") "pool-w"
      [("instance_types", Val.vlist [Val.vdict [("capacity", Val.vint 2)]])]
      imgsEx (Val.vdict []) [Val.vdict [("capacity", Val.vint 2)]]
      [("capacity", Val.vint 2)] rfl (List.mem_singleton.mpr rfl) rfl).2⟩,
   ⟨(c2_amended_capacity_validation.2.1 envEx (Val.vstr "aws-provider") "pool-w"
      [("instance_types", Val.vlist [Val.vdict [("capacityPerInstance", Val.vint 2)]]),
       ("implementation", Val.vstr "generic-worker")]
      imgsEx (Val.vdict []) [Val.vdict [("capacityPerInstance", Val.vint 2)]]
      [("capacityPerInstance", Val.vint 2)] rfl (List.mem_singleton.mpr rfl)
      (by decide) (by decide)).1,
    (c2_amended_capacity_validation.2.1 envEx (Val.vstr "google-provider") "pool-w"
      [("instance_types", Val.vlist [Val.vdict [("capacityPerInstance", Val.vint 2)]]),
       ("implementation", Val.vstr "generic-worker")]
      imgsEx (Val.vdict []) [Val.vdict [("capacityPerInstance", Val.vint 2)]]
      [("capacityPerInstance", Val.vint 2)] rfl (List.mem_singleton.mpr rfl)
      (by decide) (by decide)).2⟩⟩

theorem aws_for_instance_types_cpi {ctx : AwsCtx} {region az subnet sg : Val} :
    ∀ {its l : List Val},
      aws_for_instance_types ctx region az subnet sg its = Except.ok l →
      ∀ lc ∈ l, ∃ it ∈ its, ∃ d, it = Val.vdict d ∧
        lcField lc "capacityPerInstance" =
          some ((lookupStr d "capacityPerInstance").getD (Val.vint 1)) := by
  intro its
  induction its with
  | nil =>
    intro l h lc hlc
    cases pureE_ok h
    exact absurd hlc (List.not_mem_nil lc)
  | cons it0 rest ih =>
    intro l h lc hlc
    simp only [aws_for_instance_types] at h
    obtain ⟨inv0, hinv0, h⟩ := bindE_ok h
    obtain ⟨itName, hitName, h⟩ := bindE_ok h
    obtain ⟨invb, hinvb, h⟩ := bindE_ok h
    by_cases hb : invb = true
    · rw [if_pos hb] at h
      obtain ⟨it2, hit2mem, hrest⟩ := ih h lc hlc
      exact ⟨it2, List.mem_cons_of_mem _ hit2mem, hrest⟩
    · rw [if_neg hb] at h
      obtain ⟨iwc, hiwc, h⟩ := bindE_ok h
      obtain ⟨cpi, hcpi, h⟩ := bindE_ok h
      obtain ⟨imgId, himgId, h⟩ := bindE_ok h
      obtain ⟨audBase, haudBase, h⟩ := bindE_ok h
      obtain ⟨itaud, hitaud, h⟩ := bindE_ok h
      obtain ⟨itaudD, hitaudD, h⟩ := bindE_ok h
      obtain ⟨itlc, hitlc, h⟩ := bindE_ok h
      obtain ⟨lc2, hlc2, h⟩ := bindE_ok h
      obtain ⟨rest2, hrest2, h⟩ := bindE_ok h
      cases pureE_ok h
      rcases List.mem_cons.mp hlc with rfl | hin
      · cases hit0 : it0 with
        | vdict d =>
          subst hit0
          have hcv : (lookupStr d "capacityPerInstance").getD (Val.vint 1) = cpi :=
            Except.ok.inj hcpi
          refine ⟨Val.vdict d, List.mem_cons_self _ _, d, rfl, ?_⟩
          simp [lcField, lookupStr, hcv]
        | vstr s => subst hit0; exact Except.noConfusion hcpi
        | vint n => subst hit0; exact Except.noConfusion hcpi
        | vbool b => subst hit0; exact Except.noConfusion hcpi
        | vnone => subst hit0; exact Except.noConfusion hcpi
        | vlist l0 => subst hit0; exact Except.noConfusion hcpi
      · obtain ⟨it2, hit2mem, hrest⟩ := ih hrest2 lc hin
        exact ⟨it2, List.mem_cons_of_mem _ hit2mem, hrest⟩

theorem aws_for_zones_cpi {ctx : AwsCtx} {region sg : Val} :
    ∀ {zs l : List Val},
      aws_for_zones ctx region sg zs = Except.ok l →
      ∀ lc ∈ l, ∃ it ∈ ctx.instance_types, ∃ d, it = Val.vdict d ∧
        lcField lc "capacityPerInstance" =
          some ((lookupStr d "capacityPerInstance").getD (Val.vint 1)) := by
  intro zs
  induction zs with
  | nil =>
    intro l h lc hlc
    cases pureE_ok h
    exact absurd hlc (List.not_mem_nil lc)
  | cons z rest ih =>
    intro l h lc hlc
    simp only [aws_for_zones] at h
    obtain ⟨snField, hsn, h⟩ := bindE_ok h
    obtain ⟨subnet, hsubnet, h⟩ := bindE_ok h
    obtain ⟨here, hhere, h⟩ := bindE_ok h
    obtain ⟨there, hthere, h⟩ := bindE_ok h
    cases pureE_ok h
    rcases List.mem_append.mp hlc with hmem | hmem
    · exact aws_for_instance_types_cpi hhere lc hmem
    · exact ih hthere lc hmem

theorem aws_for_regions_cpi {ctx : AwsCtx} :
    ∀ {rs l : List Val},
      aws_for_regions ctx rs = Except.ok l →
      ∀ lc ∈ l, ∃ it ∈ ctx.instance_types, ∃ d, it = Val.vdict d ∧
        lcField lc "capacityPerInstance" =
          some ((lookupStr d "capacityPerInstance").getD (Val.vint 1)) := by
  intro rs
  induction rs with
  | nil =>
    intro l h lc hlc
    cases pureE_ok h
    exact absurd hlc (List.not_mem_nil lc)
  | cons r rest ih =>
    intro l h lc hlc
    simp only [aws_for_regions] at h
    obtain ⟨azsField, hazsField, h⟩ := bindE_ok h
    obtain ⟨azsV, hazsV, h⟩ := bindE_ok h
    obtain ⟨sgField, hsgField, h⟩ := bindE_ok h
    obtain ⟨sg, hsg, h⟩ := bindE_ok h
    obtain ⟨azs, hazs, h⟩ := bindE_ok h
    obtain ⟨here, hhere, h⟩ := bindE_ok h
    obtain ⟨there, hthere, h⟩ := bindE_ok h
    cases pureE_ok h
    rcases List.mem_append.mp hlc with hmem | hmem
    · exact aws_for_zones_cpi hhere lc hmem
    · exact ih hthere lc hmem

theorem google_for_types_cpi {ctx : GoogleCtx} {region zone : Val} :
    ∀ {its l : List Val},
      google_for_types ctx region zone its = Except.ok l →
      ∀ lc ∈ l, ∃ it ∈ its, ∃ d, it = Val.vdict d ∧
        lcField lc "capacityPerInstance" =
          some ((lookupStr d "capacityPerInstance").getD (Val.vint 1)) := by
  intro its
  induction its with
  | nil =>
    intro l h lc hlc
    cases pureE_ok h
    exact absurd hlc (List.not_mem_nil lc)
  | cons it0 rest ih =>
    intro l h lc hlc
    simp only [google_for_types] at h
    obtain ⟨d0, hd0, h⟩ := bindE_ok h
    obtain ⟨disksV, hdisksV, h⟩ := bindE_ok h
    obtain ⟨disks, hdisks, h⟩ := bindE_ok h
    obtain ⟨disks2, hdisks2, h⟩ := bindE_ok h
    obtain ⟨wc1, hwc1, h⟩ := bindE_ok h
    obtain ⟨pm, hpm, h⟩ := bindE_ok h
    obtain ⟨rest2, hrest2, h⟩ := bindE_ok h
    cases pureE_ok h
    rcases List.mem_cons.mp hlc with rfl | hin
    · refine ⟨it0, List.mem_cons_self _ _, d0, asDict_ok hd0, ?_⟩
      simp only [lcField]
      rw [lookupStr_setKey_other _ _ (by decide)]
      rw [lookupStr_setKey_other _ _ (by decide)]
      rw [(popIndex_ok hpm).2]
      rw [lookupStr_delKey_other _ (by decide)]
      rw [lookupStr_setKey_other _ _ (by decide)]
      rw [popD_snd_lookup _ _ _ (by decide)]
      rw [lookupStr_setKey_other _ _ (by decide)]
      rw [lookupStr_updateDict_none (show lookupStr
        [("region", region), ("zone", zone)] "capacityPerInstance" = none from rfl)]
      by_cases hsome : (lookupStr d0 "capacityPerInstance").isSome = true
      · rw [if_pos hsome]
        obtain ⟨v0, hv0⟩ := Option.isSome_iff_exists.mp hsome
        rw [hv0]
        rfl
      · rw [if_neg hsome]
        have hn : lookupStr d0 "capacityPerInstance" = none :=
          Option.not_isSome_iff_eq_none.mp (by simpa using hsome)
        rw [lookupStr_append, hn]
        rfl
    · obtain ⟨it2, hit2mem, hrest⟩ := ih hrest2 lc hin
      exact ⟨it2, List.mem_cons_of_mem _ hit2mem, hrest⟩

theorem google_for_zones_cpi {ctx : GoogleCtx} {region : Val} :
    ∀ {zs l : List Val},
      google_for_zones ctx region zs = Except.ok l →
      ∀ lc ∈ l, ∃ it ∈ ctx.instance_types, ∃ d, it = Val.vdict d ∧
        lcField lc "capacityPerInstance" =
          some ((lookupStr d "capacityPerInstance").getD (Val.vint 1)) := by
  intro zs
  induction zs with
  | nil =>
    intro l h lc hlc
    cases pureE_ok h
    exact absurd hlc (List.not_mem_nil lc)
  | cons z rest ih =>
    intro l h lc hlc
    simp only [google_for_zones] at h
    obtain ⟨here, hhere, h⟩ := bindE_ok h
    obtain ⟨there, hthere, h⟩ := bindE_ok h
    cases pureE_ok h
    rcases List.mem_append.mp hlc with hmem | hmem
    · exact google_for_types_cpi hhere lc hmem
    · exact ih hthere lc hmem

theorem google_for_regions_cpi {ctx : GoogleCtx} :
    ∀ {rs l : List Val},
      google_for_regions ctx rs = Except.ok l →
      ∀ lc ∈ l, ∃ it ∈ ctx.instance_types, ∃ d, it = Val.vdict d ∧
        lcField lc "capacityPerInstance" =
          some ((lookupStr d "capacityPerInstance").getD (Val.vint 1)) := by
  intro rs
  induction rs with
  | nil =>
    intro l h lc hlc
    cases pureE_ok h
    exact absurd hlc (List.not_mem_nil lc)
  | cons r rest ih =>
    intro l h lc hlc
    simp only [google_for_regions] at h
    obtain ⟨zonesField, hzonesField, h⟩ := bindE_ok h
    obtain ⟨zonesV, hzonesV, h⟩ := bindE_ok h
    obtain ⟨zones, hzones, h⟩ := bindE_ok h
    obtain ⟨here, hhere, h⟩ := bindE_ok h
    obtain ⟨there, hthere, h⟩ := bindE_ok h
    cases pureE_ok h
    rcases List.mem_append.mp hlc with hmem | hmem
    · exact google_for_zones_cpi hhere lc hmem
    · exact ih hthere lc hmem

/-- Claim C3 counterexample: the azure generator initializes
capacityPerInstance to 1 but merges the per-size launchConfig override
afterwards, so an override replaces it with 2 under the non-docker default
implementation, violating the claimed invariant. -/
theorem c3_counterexample_azure_override :
    (launchConfigsOf azureOvr).map (fun lc => lcField lc "capacityPerInstance") =
      [some (Val.vint 2)] ∧
    (lookupStr cdAzOvr "implementation").getD
      (Val.vstr "generic-worker/worker-runner-windows") ≠
      Val.vstr "docker-worker" :=
  ⟨rfl, by decide⟩

/-- Claim C3 (amended): every aws and google launch configuration carries an
explicit capacityPerInstance, equal to 1 whenever the pool implementation is
not docker-worker; the azure generator sets capacityPerInstance to 1 in the
base configuration (so without overrides it equals 1), but the per-size
launchConfig override is merged on top of it and can replace the value. -/
theorem c3_amended_capacity_per_instance :
    (∀ (env : Environment) (pid : Val) (pool : String) (cd : List (String × Val))
        (imgs : List (String × WorkerImage)) (dflts : Val) (lc : Val),
      lc ∈ launchConfigsOf
        (get_aws_provider_config env pid pool (Val.vdict cd) imgs dflts) →
      ∃ c, lcField lc "capacityPerInstance" = some c ∧
        ((lookupStr cd "implementation").getD (Val.vstr "docker-worker") ≠
          Val.vstr "docker-worker" → c = Val.vint 1)) ∧
    (∀ (env : Environment) (pid : Val) (pool : String) (cd : List (String × Val))
        (imgs : List (String × WorkerImage)) (dflts : Val) (lc : Val),
      lc ∈ launchConfigsOf
        (get_google_provider_config env pid pool (Val.vdict cd) imgs dflts) →
      ∃ c, lcField lc "capacityPerInstance" = some c ∧
        ((lookupStr cd "implementation").getD (Val.vstr "docker-worker") ≠
          Val.vstr "docker-worker" → c = Val.vint 1)) ∧
    (launchConfigsOf azureC8).map (fun lc => lcField lc "capacityPerInstance") =
      [some (Val.vint 1)] := by
  refine ⟨?_, ?_, rfl⟩
  · intro env pid pool cd imgs dflts lc hmem
    cases hg : get_aws_provider_config env pid pool (Val.vdict cd) imgs dflts with
    | error e =>
      rw [hg] at hmem
      simp [launchConfigsOf, resultField] at hmem
    | ok v =>
      rw [hg] at hmem
      obtain ⟨its, lcs, rd, dl, mx, ctx, hits, hmx, hrd, hdl, himpl, hctxits,
        hval, hregs, hv⟩ := get_aws_ok_inv hg
      obtain ⟨regions, hreg⟩ := hregs
      subst hv
      have hmem2 : lc ∈ lcs := by
        simpa [launchConfigsOf, resultField, lookupStr] using hmem
      obtain ⟨it, hitmem, d, hitd, hcf⟩ := aws_for_regions_cpi hreg lc hmem2
      refine ⟨(lookupStr d "capacityPerInstance").getD (Val.vint 1), hcf, ?_⟩
      intro hnd
      rw [← himpl] at hnd
      rw [hctxits] at hitmem
      rcases (validate_each_ok (validate_vc_ok hval) it hitmem d hitd).2 with h1 | h2
      · exact h1
      · exact absurd h2 hnd
  · intro env pid pool cd imgs dflts lc hmem
    cases hg : get_google_provider_config env pid pool (Val.vdict cd) imgs dflts with
    | error e =>
      rw [hg] at hmem
      simp [launchConfigsOf, resultField] at hmem
    | ok v =>
      rw [hg] at hmem
      obtain ⟨its, lcs, rd, dl, mx, ctx, hits, hmx, hrd, hdl, himpl, hctxits,
        hval, hregs, hv⟩ := get_google_ok_inv hg
      obtain ⟨regions, hreg⟩ := hregs
      subst hv
      have hmem2 : lc ∈ lcs := by
        simpa [launchConfigsOf, resultField, lookupStr] using hmem
      obtain ⟨it, hitmem, d, hitd, hcf⟩ := google_for_regions_cpi hreg lc hmem2
      refine ⟨(lookupStr d "capacityPerInstance").getD (Val.vint 1), hcf, ?_⟩
      intro hnd
      rw [← himpl] at hnd
      rw [hctxits] at hitmem
      rcases (validate_each_ok (validate_vc_ok hval) it hitmem d hitd).2 with h1 | h2
      · exact h1
      · exact absurd h2 hnd

/-- Witness for C3: the non-docker aws example launch configuration has
capacityPerInstance 1. -/
theorem c3_amended_capacity_per_instance_witness :
    lcField lcGW "capacityPerInstance" = some (Val.vint 1) := by
  obtain ⟨c, hc, himp⟩ := c3_amended_capacity_per_instance.1 envEx
    (Val.vstr "aws-provider") "pool-gw" cdGW imgsEx (Val.vdict []) lcGW
    (List.mem_singleton.mpr rfl)
  rw [← himp (by decide)]
  exact hc

/-- Claim C5 (confirmed): the example yields exactly two launch
configurations, each with capacityPerInstance 1 by default, and, under the
default docker-worker implementation, each with workerConfig capacity 1. -/
theorem c5_aws_two_instance_types :
    (launchConfigsOf awsC5).length = 2 ∧
    (launchConfigsOf awsC5).map (fun lc => lcField lc "capacityPerInstance") =
      [some (Val.vint 1), some (Val.vint 1)] ∧
    (launchConfigsOf awsC5).map (fun lc =>
      match lcField lc "workerConfig" with
      | some (Val.vdict d) => lookupStr d "capacity"
      | _ => none) = [some (Val.vint 1), some (Val.vint 1)] :=
  ⟨rfl, rfl, rfl⟩
